import Mathlib

/-!
# Swish SFTP provider: the rename-with-overwrite protocol

A shallow embedding of `provider::rename` and of its two helpers
`rename_retry_with_overwrite` and `rename_non_atomic_overwrite`
(`src/swish/provider/Provider.cpp`).

The SFTP channel and the front-end consumer are not part of the provider:
they are parameters of the embedding.  Every call of a channel function or of
the consumer is recorded, with its outcome, in a trace, so that statements
about the order of the operations can be made for every behaviour of the
channel.

Paths are strings: `path::empty()` is equality with the empty string,
`from == to` is string equality and `to + ".swish_rename_temp"` is string
concatenation.  A call of a `void` function either returns or throws.
-/

namespace swish

/-- Portable error conditions (`boost::system::errc`) that an error code of the
channel can be equivalent to. `other` stands for every remaining condition. -/
inductive errc where
  | file_exists
  | operation_not_supported
  | no_such_file_or_directory
  | permission_denied
  | other (value : Nat)
  deriving DecidableEq, Repr

/-- The exception `boost::system::system_error`: an error code and a message. -/
structure system_error where
  code : errc
  what : String
  deriving DecidableEq, Repr

/-- The exceptions (all derived from `std::exception`) that the embedded code
throws, catches or lets through.  `com_error` carries its `HRESULT` and the
optional description; `other` is any further `std::exception`. -/
inductive exception where
  | system_error (e : swish.system_error)
  | com_error (hr : Int) (description : Option String)
  | invalid_argument (what : String)
  | other (what : String)
  deriving DecidableEq, Repr

/-- The `HRESULT` 0x80070057 as a signed 32-bit integer. -/
def E_INVALIDARG : Int := -2147024809

/-- The `HRESULT` 0x80004004 as a signed 32-bit integer. -/
def E_ABORT : Int := -2147467260

/-- The `HRESULT` of success. -/
def S_OK : Int := 0

/-- The Windows macro `FAILED(hr)`: the sign bit of the `HRESULT` is set. -/
def FAILED (hr : Int) : Bool := decide (hr < 0)

/-- The `VARIANT_BOOL` for true. -/
def VARIANT_TRUE : Int := -1

/-- The `VARIANT_BOOL` for false. -/
def VARIANT_FALSE : Int := 0

/-- The values of `ssh::filesystem::overwrite_behaviour` used by the provider. -/
inductive overwrite_behaviour where
  | prevent_overwrite
  | atomic_overwrite
  deriving DecidableEq, Repr

/-- What a call returned: a value, or the exception it threw. -/
inductive Outcome (α : Type) where
  | returned (value : α)
  | threw (e : exception)
  deriving DecidableEq, Repr

/-- One interaction of the provider with the outside, with its outcome. -/
inductive Event where
  | rename (source target : String) (behaviour : overwrite_behaviour)
      (outcome : Outcome Unit)
  | exists_ (file : String) (outcome : Outcome Bool)
  | remove_all (target : String) (outcome : Outcome Unit)
  | OnConfirmOverwrite (old_file new_file : String) (hr : Int)
  deriving DecidableEq, Repr

/-- The state the embedded code runs in: the state of the remote side (of an
arbitrary type `σ`) and the interactions recorded so far. -/
structure World (σ : Type) where
  remote : σ
  trace : List Event

/-- The session's SFTP channel, as the provider uses it.  Each field stands for
a whole call expression `f(session.get_sftp_filesystem(), ...)` of the free
functions of `ssh::filesystem` (acquiring the channel included): from a remote
state it gives the outcome of the call and the next remote state. -/
structure authenticated_session (σ : Type) where
  rename : String → String → overwrite_behaviour → σ → Outcome Unit × σ
  exists_ : String → σ → Outcome Bool × σ
  remove_all : String → σ → Outcome Unit × σ

/-- The front-end callback interface; `OnConfirmOverwrite` returns an
`HRESULT`. -/
structure ISftpConsumer (σ : Type) where
  OnConfirmOverwrite : String → String → σ → Int × σ

variable {σ : Type}

/-- The call `rename(session.get_sftp_filesystem(), source, target, behaviour)`,
recorded in the trace. -/
def ssh_rename (session : authenticated_session σ) (source target : String)
    (behaviour : overwrite_behaviour) (w : World σ) : Outcome Unit × World σ :=
  let r := session.rename source target behaviour w.remote
  (r.1, ⟨r.2, w.trace ++ [Event.rename source target behaviour r.1]⟩)

/-- The call `exists(session.get_sftp_filesystem(), file)`, recorded in the
trace. -/
def ssh_exists (session : authenticated_session σ) (file : String)
    (w : World σ) : Outcome Bool × World σ :=
  let r := session.exists_ file w.remote
  (r.1, ⟨r.2, w.trace ++ [Event.exists_ file r.1]⟩)

/-- The call `remove_all(session.get_sftp_filesystem(), target)`, recorded in
the trace. -/
def ssh_remove_all (session : authenticated_session σ) (target : String)
    (w : World σ) : Outcome Unit × World σ :=
  let r := session.remove_all target w.remote
  (r.1, ⟨r.2, w.trace ++ [Event.remove_all target r.1]⟩)

/-- The call `pConsumer->OnConfirmOverwrite(from, to)`, recorded in the
trace. -/
def OnConfirmOverwrite (pConsumer : ISftpConsumer σ) (from_ to_ : String)
    (w : World σ) : Int × World σ :=
  let r := pConsumer.OnConfirmOverwrite from_ to_ w.remote
  (r.1, ⟨r.2, w.trace ++ [Event.OnConfirmOverwrite from_ to_ r.1]⟩)

/-- The function `rename_non_atomic_overwrite` of `Provider.cpp`: move the
obstruction to a temporary name, rename the source to the target, delete the
temporary.  The handler of the second rename repeats the rename of `from_` to
`to_`, ignores its outcome and rethrows; the outcome of the removal is
ignored. -/
def rename_non_atomic_overwrite (session : authenticated_session σ)
    (from_ to_ : String) (w : World σ) : Outcome Unit × World σ :=
  let temporary := to_ ++ ".swish_rename_temp"
  match ssh_rename session to_ temporary overwrite_behaviour.prevent_overwrite w with
  | (Outcome.threw e, w1) => (Outcome.threw e, w1)
  | (Outcome.returned _, w1) =>
    match ssh_rename session from_ to_ overwrite_behaviour.prevent_overwrite w1 with
    | (Outcome.threw e, w2) =>
      match ssh_rename session from_ to_ overwrite_behaviour.prevent_overwrite w2 with
      | (_, w3) => (Outcome.threw e, w3)
    | (Outcome.returned _, w2) =>
      match ssh_remove_all session temporary w2 with
      | (_, w3) => (Outcome.returned (), w3)

/-- The function `rename_retry_with_overwrite` of `Provider.cpp`.  The
`assert` on `previous_error` is not modelled. -/
def rename_retry_with_overwrite (session : authenticated_session σ)
    (pConsumer : ISftpConsumer σ) (previous_error : system_error)
    (from_ to_ : String) (w : World σ) : Outcome Bool × World σ :=
  if previous_error.code = errc.file_exists then
    match OnConfirmOverwrite pConsumer from_ to_ w with
    | (hr, w1) =>
      if FAILED hr then (Outcome.returned false, w1)
      else
        match ssh_rename session from_ to_ overwrite_behaviour.atomic_overwrite w1 with
        | (Outcome.returned _, w2) => (Outcome.returned true, w2)
        | (Outcome.threw (exception.system_error e), w2) =>
          if e.code = errc.operation_not_supported then
            match rename_non_atomic_overwrite session from_ to_ w2 with
            | (Outcome.threw x, w3) => (Outcome.threw x, w3)
            | (Outcome.returned _, w3) => (Outcome.returned true, w3)
          else (Outcome.threw (exception.system_error e), w2)
        | (Outcome.threw x, w2) => (Outcome.threw x, w2)
  else
    match ssh_exists session to_ w with
    | (Outcome.threw x, w1) => (Outcome.threw x, w1)
    | (Outcome.returned true, w1) =>
      match OnConfirmOverwrite pConsumer from_ to_ w1 with
      | (hr, w2) =>
        if FAILED hr then (Outcome.returned false, w2)
        else
          match rename_non_atomic_overwrite session from_ to_ w2 with
          | (Outcome.threw x, w3) => (Outcome.threw x, w3)
          | (Outcome.returned _, w3) => (Outcome.returned true, w3)
    | (Outcome.returned false, w1) =>
      (Outcome.threw (exception.system_error previous_error), w1)

/-- The member function `provider::rename` of `Provider.cpp`; `session` is
`m_ticket.session()`.  Only a `system_error` of the first attempt is caught. -/
def provider.rename (session : authenticated_session σ)
    (consumer : ISftpConsumer σ) (from_ to_ : String) (w : World σ) :
    Outcome Int × World σ :=
  if from_ = "" then (Outcome.threw (exception.com_error E_INVALIDARG none), w)
  else if to_ = "" then (Outcome.threw (exception.com_error E_INVALIDARG none), w)
  else if from_ = to_ then (Outcome.returned VARIANT_FALSE, w)
  else
    match ssh_rename session from_ to_ overwrite_behaviour.prevent_overwrite w with
    | (Outcome.returned _, w1) => (Outcome.returned VARIANT_FALSE, w1)
    | (Outcome.threw (exception.system_error e), w1) =>
      match rename_retry_with_overwrite session consumer e from_ to_ w1 with
      | (Outcome.threw x, w2) => (Outcome.threw x, w2)
      | (Outcome.returned true, w2) => (Outcome.returned VARIANT_TRUE, w2)
      | (Outcome.returned false, w2) =>
        (Outcome.threw (exception.com_error E_ABORT none), w2)
    | (Outcome.threw x, w1) => (Outcome.threw x, w1)

/-! ## A remote side with ordinary filesystem semantics

The scenarios of the specification speak of a server on which operations
"succeed with ordinary filesystem semantics" and which does not support the
atomic overwrite.  `sftp_v3_server` is such a server; it is an assumption about
the outside, not a part of the provider. -/

/-- A remote filesystem: what is stored at each path (nothing, or a content). -/
abbrev remote_fs := String → Option String

/-- A server without atomic overwrite.  A rename with overwrite prevented
fails with `no_such_file_or_directory` when the source is missing, fails with
the error `obstructed` when the target is occupied, and otherwise moves the
entry; an atomic overwrite is answered with `operation_not_supported`;
`exists_` looks the path up; `remove_all` deletes the entry.  A failed call
leaves the filesystem as it was. -/
def sftp_v3_server (obstructed : system_error) : authenticated_session remote_fs where
  rename := fun source target behaviour fs =>
    match behaviour with
    | overwrite_behaviour.atomic_overwrite =>
      (Outcome.threw (exception.system_error ⟨errc.operation_not_supported, "unsupported"⟩), fs)
    | overwrite_behaviour.prevent_overwrite =>
      match fs source with
      | none =>
        (Outcome.threw (exception.system_error ⟨errc.no_such_file_or_directory, "no such file"⟩), fs)
      | some content =>
        if (fs target).isSome then (Outcome.threw (exception.system_error obstructed), fs)
        else
          (Outcome.returned (),
            fun p => if p = target then some content else if p = source then none else fs p)
  exists_ := fun file fs => (Outcome.returned (fs file).isSome, fs)
  remove_all := fun target fs =>
    (Outcome.returned (), fun p => if p = target then none else fs p)

/-- A server like `sftp_v3_server` whose `remove_all` always fails with
`permission_denied`. -/
def undeletable_server (obstructed : system_error) : authenticated_session remote_fs where
  rename := (sftp_v3_server obstructed).rename
  exists_ := (sftp_v3_server obstructed).exists_
  remove_all := fun _ fs =>
    (Outcome.threw (exception.system_error ⟨errc.permission_denied, "denied"⟩), fs)

/-- A consumer that answers every confirmation request with `hr` and does not
touch the remote side. -/
def answering_consumer (σ : Type) (hr : Int) : ISftpConsumer σ where
  OnConfirmOverwrite := fun _ _ s => (hr, s)

/-- The error with which OpenSSH-like servers report an occupied target. -/
def generic_failure : system_error := ⟨errc.other 4, "failure"⟩

/-- The error with which newer servers report an occupied target. -/
def already_exists : system_error := ⟨errc.file_exists, "file already exists"⟩

/-- A filesystem holding exactly the listed entries (the first match counts). -/
def fs_of (entries : List (String × String)) : remote_fs :=
  fun p => (entries.find? (fun kv => kv.1 = p)).map Prod.snd


/-! ## The runs of the rename protocol

`fallback_run` and `rename_run` list, branch by branch, the outcome and the
trace that a call can produce.  They are proved complete below and are used to
prove the statements that hold for every behaviour of the channel. -/

/-- The possible runs of `rename_non_atomic_overwrite`: its outcome and the
events it adds to the trace. -/
inductive fallback_run (from_ to_ : String) : Outcome Unit → List Event → Prop where
  | move_failed (e : exception) :
      fallback_run from_ to_ (Outcome.threw e)
        [Event.rename to_ (to_ ++ ".swish_rename_temp")
          overwrite_behaviour.prevent_overwrite (Outcome.threw e)]
  | rename_failed (e : exception) (r : Outcome Unit) :
      fallback_run from_ to_ (Outcome.threw e)
        [Event.rename to_ (to_ ++ ".swish_rename_temp")
          overwrite_behaviour.prevent_overwrite (Outcome.returned ()),
         Event.rename from_ to_ overwrite_behaviour.prevent_overwrite (Outcome.threw e),
         Event.rename from_ to_ overwrite_behaviour.prevent_overwrite r]
  | renamed (r : Outcome Unit) :
      fallback_run from_ to_ (Outcome.returned ())
        [Event.rename to_ (to_ ++ ".swish_rename_temp")
          overwrite_behaviour.prevent_overwrite (Outcome.returned ()),
         Event.rename from_ to_ overwrite_behaviour.prevent_overwrite (Outcome.returned ()),
         Event.remove_all (to_ ++ ".swish_rename_temp") r]

/-- The possible runs of `provider::rename`: its outcome and the events it adds
to the trace. -/
inductive rename_run (from_ to_ : String) : Outcome Int → List Event → Prop where
  | invalid (h : from_ = "" ∨ to_ = "") :
      rename_run from_ to_ (Outcome.threw (exception.com_error E_INVALIDARG none)) []
  | same (h : from_ = to_) :
      rename_run from_ to_ (Outcome.returned VARIANT_FALSE) []
  | plain :
      rename_run from_ to_ (Outcome.returned VARIANT_FALSE)
        [Event.rename from_ to_ overwrite_behaviour.prevent_overwrite (Outcome.returned ())]
  | first_uncaught (x : exception) (hx : ∀ e, x ≠ exception.system_error e) :
      rename_run from_ to_ (Outcome.threw x)
        [Event.rename from_ to_ overwrite_behaviour.prevent_overwrite (Outcome.threw x)]
  | exists_declined (e : system_error) (hr : Int) (hc : e.code = errc.file_exists)
      (hd : FAILED hr = true) :
      rename_run from_ to_ (Outcome.threw (exception.com_error E_ABORT none))
        [Event.rename from_ to_ overwrite_behaviour.prevent_overwrite
          (Outcome.threw (exception.system_error e)),
         Event.OnConfirmOverwrite from_ to_ hr]
  | atomic_done (e : system_error) (hr : Int) (hc : e.code = errc.file_exists)
      (hg : FAILED hr = false) :
      rename_run from_ to_ (Outcome.returned VARIANT_TRUE)
        [Event.rename from_ to_ overwrite_behaviour.prevent_overwrite
          (Outcome.threw (exception.system_error e)),
         Event.OnConfirmOverwrite from_ to_ hr,
         Event.rename from_ to_ overwrite_behaviour.atomic_overwrite (Outcome.returned ())]
  | atomic_failed (e : system_error) (hr : Int) (x : exception)
      (hc : e.code = errc.file_exists) (hg : FAILED hr = false)
      (hx : ∀ e2, x = exception.system_error e2 → e2.code ≠ errc.operation_not_supported) :
      rename_run from_ to_ (Outcome.threw x)
        [Event.rename from_ to_ overwrite_behaviour.prevent_overwrite
          (Outcome.threw (exception.system_error e)),
         Event.OnConfirmOverwrite from_ to_ hr,
         Event.rename from_ to_ overwrite_behaviour.atomic_overwrite (Outcome.threw x)]
  | unsupported_failed (e e2 : system_error) (hr : Int) (x : exception) (t : List Event)
      (hc : e.code = errc.file_exists) (hg : FAILED hr = false)
      (h2 : e2.code = errc.operation_not_supported)
      (ht : fallback_run from_ to_ (Outcome.threw x) t) :
      rename_run from_ to_ (Outcome.threw x)
        ([Event.rename from_ to_ overwrite_behaviour.prevent_overwrite
          (Outcome.threw (exception.system_error e)),
         Event.OnConfirmOverwrite from_ to_ hr,
         Event.rename from_ to_ overwrite_behaviour.atomic_overwrite
          (Outcome.threw (exception.system_error e2))] ++ t)
  | unsupported_done (e e2 : system_error) (hr : Int) (t : List Event)
      (hc : e.code = errc.file_exists) (hg : FAILED hr = false)
      (h2 : e2.code = errc.operation_not_supported)
      (ht : fallback_run from_ to_ (Outcome.returned ()) t) :
      rename_run from_ to_ (Outcome.returned VARIANT_TRUE)
        ([Event.rename from_ to_ overwrite_behaviour.prevent_overwrite
          (Outcome.threw (exception.system_error e)),
         Event.OnConfirmOverwrite from_ to_ hr,
         Event.rename from_ to_ overwrite_behaviour.atomic_overwrite
          (Outcome.threw (exception.system_error e2))] ++ t)
  | check_failed (e : system_error) (x : exception) (hc : e.code ≠ errc.file_exists) :
      rename_run from_ to_ (Outcome.threw x)
        [Event.rename from_ to_ overwrite_behaviour.prevent_overwrite
          (Outcome.threw (exception.system_error e)),
         Event.exists_ to_ (Outcome.threw x)]
  | unobstructed (e : system_error) (hc : e.code ≠ errc.file_exists) :
      rename_run from_ to_ (Outcome.threw (exception.system_error e))
        [Event.rename from_ to_ overwrite_behaviour.prevent_overwrite
          (Outcome.threw (exception.system_error e)),
         Event.exists_ to_ (Outcome.returned false)]
  | stat_declined (e : system_error) (hr : Int) (hc : e.code ≠ errc.file_exists)
      (hd : FAILED hr = true) :
      rename_run from_ to_ (Outcome.threw (exception.com_error E_ABORT none))
        [Event.rename from_ to_ overwrite_behaviour.prevent_overwrite
          (Outcome.threw (exception.system_error e)),
         Event.exists_ to_ (Outcome.returned true),
         Event.OnConfirmOverwrite from_ to_ hr]
  | stat_failed (e : system_error) (hr : Int) (x : exception) (t : List Event)
      (hc : e.code ≠ errc.file_exists) (hg : FAILED hr = false)
      (ht : fallback_run from_ to_ (Outcome.threw x) t) :
      rename_run from_ to_ (Outcome.threw x)
        ([Event.rename from_ to_ overwrite_behaviour.prevent_overwrite
          (Outcome.threw (exception.system_error e)),
         Event.exists_ to_ (Outcome.returned true),
         Event.OnConfirmOverwrite from_ to_ hr] ++ t)
  | stat_done (e : system_error) (hr : Int) (t : List Event)
      (hc : e.code ≠ errc.file_exists) (hg : FAILED hr = false)
      (ht : fallback_run from_ to_ (Outcome.returned ()) t) :
      rename_run from_ to_ (Outcome.returned VARIANT_TRUE)
        ([Event.rename from_ to_ overwrite_behaviour.prevent_overwrite
          (Outcome.threw (exception.system_error e)),
         Event.exists_ to_ (Outcome.returned true),
         Event.OnConfirmOverwrite from_ to_ hr] ++ t)

/-! ## Vocabulary for statements about traces -/

/-- The events that change the remote side when they succeed: renames and
removals. -/
def mutating : Event → Bool
  | Event.rename _ _ _ _ => true
  | Event.remove_all _ _ => true
  | _ => false

/-- The requests for an overwrite confirmation. -/
def is_confirmation : Event → Bool
  | Event.OnConfirmOverwrite _ _ _ => true
  | _ => false

/-- The channel operations that can destroy the obstruction: every removal and
every rename other than the rename of `from_` to `to_` with overwrite
prevented (so the atomic overwrite and the move of `to_` to the temporary
path are destructive). -/
def destructive (from_ to_ : String) : Event → Bool
  | Event.rename source target behaviour _ =>
    !(decide (source = from_) && decide (target = to_) &&
      decide (behaviour = overwrite_behaviour.prevent_overwrite))
  | Event.remove_all _ _ => true
  | _ => false

/-- The exception an event ended with, if it threw. -/
def thrown : Event → Option exception
  | Event.rename _ _ _ (Outcome.threw e) => some e
  | Event.exists_ _ (Outcome.threw e) => some e
  | Event.remove_all _ (Outcome.threw e) => some e
  | _ => none

/-- The confirmations of the overwrite of `to_` by `from_` that were granted
(the `HRESULT` is not a failure). -/
def grants (from_ to_ : String) : Event → Bool
  | Event.OnConfirmOverwrite old_file new_file hr =>
    decide (old_file = from_) && decide (new_file = to_) && !FAILED hr
  | _ => false

/-- No destructive operation occurs in the trace before a confirmation was
granted; `granted` says whether one was granted before the trace starts. -/
def guarded (from_ to_ : String) : Bool → List Event → Bool
  | _, [] => true
  | granted, ev :: rest =>
    (!destructive from_ to_ ev || granted) &&
      guarded from_ to_ (granted || grants from_ to_ ev) rest

/-- The renames issued with `overwrite_behaviour::atomic_overwrite`. -/
def is_atomic_overwrite : Event → Bool
  | Event.rename _ _ overwrite_behaviour.atomic_overwrite _ => true
  | _ => false

/-- Event `b` comes right after event `a` somewhere in the trace. -/
def consecutive (a b : Event) (trace : List Event) : Prop :=
  (a, b) ∈ trace.zip trace.tail

instance (a b : Event) (trace : List Event) : Decidable (consecutive a b trace) := by
  unfold consecutive
  infer_instance

/-! ## Removal -/

/-- The member function `provider::remove_all` of `Provider.cpp`; `session` is
`m_ticket.session()`. -/
def provider.remove_all (session : authenticated_session σ) (target : String)
    (w : World σ) : Outcome Unit × World σ :=
  if target = "" then (Outcome.threw (exception.com_error E_INVALIDARG none), w)
  else ssh_remove_all session target w

/-! ## Listing, streams and symbolic links

`provider::listing` and `provider::get_file` acquire the channel in a statement
of its own, so the acquisition is an access of its own here.  The session, the
directory iterator, the stream classes, the item classes and the path functions
are not part of the provider; they are parameters. -/

/-- One access of `listing`, `get_file` or `is_directory` to the outside, with
the exception it threw, if any. -/
inductive Access where
  | get_sftp_filesystem (thrown : Option exception)
  | directory_iterator (directory : String) (thrown : Option exception)
  | fstream (file_path : String) (mode : Nat) (thrown : Option exception)
  | ofstream (file_path : String) (mode : Nat) (thrown : Option exception)
  | ifstream (file_path : String) (mode : Nat) (thrown : Option exception)
  | stat (path : String) (follow_links : Bool) (thrown : Option exception)
  deriving DecidableEq, Repr

/-- The exception of an outcome, if it is one. -/
def Outcome.thrown {α : Type} : Outcome α → Option exception
  | Outcome.returned _ => none
  | Outcome.threw e => some e

/-- The state `listing`, `get_file` and `is_directory` run in: the state of the
remote side and the accesses recorded so far. -/
structure Logged (σ : Type) where
  remote : σ
  accesses : List Access

/-- The session and its channel as `listing` and `get_file` use them:
`m_ticket.session().get_sftp_filesystem()`, the complete enumeration of
`channel.directory_iterator(directory)` (the entries, of type `α`, or the
exception that ended it), and the constructors of the three stream classes
(a stream, of type `ι`, or an exception). -/
structure sftp_channel (σ α ι : Type) where
  get_sftp_filesystem : σ → Outcome Unit × σ
  directory_iterator : String → σ → Outcome (List α) × σ
  fstream : String → Nat → σ → Outcome ι × σ
  ofstream : String → Nat → σ → Outcome ι × σ
  ifstream : String → Nat → σ → Outcome ι × σ

/-- The pure functions of the libraries that the provider calls:
`sftp_file::path`, `path::filename` and
`libssh2_sftp_filesystem_item::create_from_libssh2_file` (from an entry of type
`α` to an item of type `β`). -/
structure sftp_functions (α β : Type) where
  path : α → String
  filename : String → String
  create_from_libssh2_file : α → β

/-- The bits `std::ios_base::in` and `std::ios_base::out`, whose values the
implementation of the standard library chooses. -/
structure ios_base where
  in_ : Nat
  out : Nat

/-- The values of the Microsoft standard library. -/
def msvc_ios_base : ios_base := ⟨1, 2⟩

/-- What `adapt_stream_pointer(stream, name)` wraps: the stream and the name
given to it. -/
structure IStream (ι : Type) where
  stream : ι
  name : String
  deriving DecidableEq, Repr

/-- Records an access and passes its outcome on. -/
def logged {α : Type} (access : Option exception → Access)
    (call : σ → Outcome α × σ) (w : Logged σ) : Outcome α × Logged σ :=
  let r := call w.remote
  (r.1, ⟨r.2, w.accesses ++ [access r.1.thrown]⟩)

/-- The function `not_special_file` of `Provider.cpp`. -/
def not_special_file {α β : Type} (lib : sftp_functions α β) (file : α) : Bool :=
  lib.filename (lib.path file) != "." && lib.filename (lib.path file) != ".."

/-- The member function `provider::listing` of `Provider.cpp`: the entries of
the iterator that pass `not_special_file`, each converted with
`create_from_libssh2_file`, in the order of the iterator. -/
def provider.listing {α β ι : Type} (channel : sftp_channel σ α ι)
    (lib : sftp_functions α β) (directory : String) (w : Logged σ) :
    Outcome (List β) × Logged σ :=
  if directory = "" then (Outcome.threw (exception.com_error E_INVALIDARG none), w)
  else
    match logged Access.get_sftp_filesystem channel.get_sftp_filesystem w with
    | (Outcome.threw e, w1) => (Outcome.threw e, w1)
    | (Outcome.returned _, w1) =>
      match logged (Access.directory_iterator directory)
          (channel.directory_iterator directory) w1 with
      | (Outcome.threw e, w2) => (Outcome.threw e, w2)
      | (Outcome.returned entries, w2) =>
        (Outcome.returned
          ((entries.filter (not_special_file lib)).map lib.create_from_libssh2_file), w2)

/-- The stream handed out by `get_file`: `adapt_stream_pointer` applied to the
opened stream and to the filename of the path; a failed constructor is passed
on. -/
def adapt_stream_pointer {ι : Type} (name : String) (r : Outcome ι × Logged σ) :
    Outcome (IStream ι) × Logged σ :=
  match r with
  | (Outcome.threw e, w) => (Outcome.threw e, w)
  | (Outcome.returned stream, w) => (Outcome.returned ⟨stream, name⟩, w)

/-- The member function `provider::get_file` of `Provider.cpp`. -/
def provider.get_file {α β ι : Type} (channel : sftp_channel σ α ι)
    (lib : sftp_functions α β) (ios : ios_base) (file_path : String) (mode : Nat)
    (w : Logged σ) : Outcome (IStream ι) × Logged σ :=
  if file_path = "" then
    (Outcome.threw (exception.invalid_argument "File cannot be empty"), w)
  else
    match logged Access.get_sftp_filesystem channel.get_sftp_filesystem w with
    | (Outcome.threw e, w1) => (Outcome.threw e, w1)
    | (Outcome.returned _, w1) =>
      if (mode &&& ios.out != 0) && (mode &&& ios.in_ != 0) then
        adapt_stream_pointer (lib.filename file_path)
          (logged (Access.fstream file_path mode) (channel.fstream file_path mode) w1)
      else if mode &&& ios.out != 0 then
        adapt_stream_pointer (lib.filename file_path)
          (logged (Access.ofstream file_path mode) (channel.ofstream file_path mode) w1)
      else if mode &&& ios.in_ != 0 then
        adapt_stream_pointer (lib.filename file_path)
          (logged (Access.ifstream file_path mode) (channel.ifstream file_path mode) w1)
      else
        (Outcome.threw (exception.invalid_argument "Stream must be input, output or both"),
          w1)

/-- The values of `sftp_filesystem_item::item_type` that `SftpDirectory.cpp`
tests for; `other` stands for the remaining ones. -/
inductive item_type where
  | directory
  | link
  | other (tag : Nat)
  deriving DecidableEq, Repr

/-- An `sftp_filesystem_item`, with the two properties `is_directory` reads. -/
structure sftp_filesystem_item where
  filename : String
  type : item_type
  deriving DecidableEq, Repr

/-- The interface `sftp_provider` as `is_directory` uses it: `stat(path,
follow_links)`. -/
structure sftp_provider (σ : Type) where
  stat : String → Bool → σ → Outcome sftp_filesystem_item × σ

/-- The function `is_link` of `SftpDirectory.cpp`. -/
def is_link (lt : sftp_filesystem_item) : Bool :=
  lt.type == item_type.link

/-- The function `is_directory` of `SftpDirectory.cpp`; `slash` is the
operator `/` of `path`.  Every exception of `stat` is caught. -/
def is_directory (slash : String → String → String) (file : sftp_filesystem_item)
    (directory : String) (provider : sftp_provider σ) (w : Logged σ) : Bool × Logged σ :=
  if is_link file then
    let link_path := slash directory file.filename
    match logged (Access.stat link_path true) (provider.stat link_path true) w with
    | (Outcome.returned target, w1) => (target.type == item_type.directory, w1)
    | (Outcome.threw _, w1) => (false, w1)
  else (file.type == item_type.directory, w)

/-- A channel over a remote side without state that is always acquired,
enumerates the given entries for every directory and opens every stream; the
stream it opens is the name of its class. -/
def enumerating_channel (entries : List String) : sftp_channel Unit String String where
  get_sftp_filesystem := fun s => (Outcome.returned (), s)
  directory_iterator := fun _ s => (Outcome.returned entries, s)
  fstream := fun _ _ s => (Outcome.returned "fstream", s)
  ofstream := fun _ _ s => (Outcome.returned "ofstream", s)
  ifstream := fun _ _ s => (Outcome.returned "ifstream", s)

/-- Library functions for entries that are bare names: the path of an entry and
the filename of a path are the name itself, and so is the item made of it. -/
def bare_names : sftp_functions String String where
  path := fun name => name
  filename := fun name => name
  create_from_libssh2_file := fun name => name

/-- A provider whose `stat` finds the listed paths, with the listed type, and
fails with `no_such_file_or_directory` for every other path. -/
def stat_provider (targets : List (String × item_type)) : sftp_provider Unit where
  stat := fun path _ s =>
    match targets.find? (fun kv => kv.1 = path) with
    | some kv => (Outcome.returned ⟨path, kv.2⟩, s)
    | none =>
      (Outcome.threw (exception.system_error
        ⟨errc.no_such_file_or_directory, "no such file"⟩), s)

/-- The stream `get_file` hands out for the outcome of a stream constructor. -/
def named_stream {ι : Type} (name : String) : Outcome ι → Outcome (IStream ι)
  | Outcome.returned stream => Outcome.returned ⟨stream, name⟩
  | Outcome.threw e => Outcome.threw e

/-- The error kinds that the specification names for the provider. -/
inductive error_kind where
  | InvalidArgument
  | InvalidOperation
  | Aborted
  | TargetExists
  | NotSupported
  | Unknown
  deriving DecidableEq, Repr

/-- The error kind of each exception, as the specification names them: both
`com_error(E_INVALIDARG)` (empty path in `rename`, `listing`, `remove_all`) and
`std::invalid_argument` (empty path in `get_file`) are its `InvalidArgument`,
`com_error(E_ABORT)` is its `Aborted`, the error codes `file_exists` and
`operation_not_supported` are its `TargetExists` and `NotSupported`.  No
exception of the provider is an `InvalidOperation`. -/
def error_kind_of : exception → error_kind
  | exception.com_error hr _ =>
    if hr = E_INVALIDARG then error_kind.InvalidArgument
    else if hr = E_ABORT then error_kind.Aborted
    else error_kind.Unknown
  | exception.invalid_argument _ => error_kind.InvalidArgument
  | exception.system_error e =>
    match e.code with
    | errc.file_exists => error_kind.TargetExists
    | errc.operation_not_supported => error_kind.NotSupported
    | _ => error_kind.Unknown
  | exception.other _ => error_kind.Unknown

/-! ## The session pool

The implementation of the pool (`swish/connection/session_pool`) is not among
the sources, only its tests are.  The pool below follows the specification
(section 4.1), one operation at a time; it does not model concurrency. -/

/-- Modelled from the spec: the connection identity (`connection_spec`), whose
declaration is missing: host, user and port, compared structurally. -/
structure connection_spec where
  host : String
  user : String
  port : Nat
  deriving DecidableEq, Repr

/-- Modelled from the spec: an entry of the pool, whose declaration is missing:
which session instance it is (`handle`, the identity of the object, not its
content) and how many reservations of it are live. -/
structure pooled_session where
  handle : Nat
  reservations : Nat
  deriving DecidableEq, Repr

/-- Modelled from the spec: the state of the session pool, whose implementation
is missing.  It maps each identity to at most one session, keeps the registry
of pending tasks, and counts the sessions created so far (the next session
instance gets that number as its handle). -/
structure session_pool where
  sessions : connection_spec → Option pooled_session
  pending_tasks : List (connection_spec × String)
  created : Nat

/-- Modelled from the spec: a reservation, whose declaration is missing: the
identity, the session instance it borrows and the name of the task holding
it. -/
structure reservation where
  identity : connection_spec
  session : Nat
  task_name : String
  deriving DecidableEq, Repr

/-- The pool before any reservation. -/
def session_pool.empty : session_pool where
  sessions := fun _ => none
  pending_tasks := []
  created := 0

/-- Modelled from the spec: `has_session(identity)`, missing from the sources:
"true iff a session currently exists for `identity` (regardless of reservation
count)". -/
def session_pool.has_session (pool : session_pool) (identity : connection_spec) : Bool :=
  (pool.sessions identity).isSome

/-- Modelled from the spec: `reserve(identity, credential_resolver, task_name)`,
missing from the sources.  "If a session exists for `identity`, increments its
reservation count and returns a Reservation over it.  If none exists, creates
one by invoking the transport/auth capability, inserts it into the map, sets
its reservation count to 1, and returns a Reservation"; it "registers
`{identity, task_name}` in the Pending-Task Registry".  `connect` is the
transport/auth capability: whether a session can be established for the
identity with the resolver; when it cannot, there is no reservation. -/
def session_pool.reserve {ρ : Type} (connect : connection_spec → ρ → Bool)
    (pool : session_pool) (identity : connection_spec) (credential_resolver : ρ)
    (task_name : String) : Option (reservation × session_pool) :=
  match pool.sessions identity with
  | some existing =>
    some (⟨identity, existing.handle, task_name⟩,
      { sessions := fun i =>
          if i = identity then some ⟨existing.handle, existing.reservations + 1⟩
          else pool.sessions i
        pending_tasks := (identity, task_name) :: pool.pending_tasks
        created := pool.created })
  | none =>
    if connect identity credential_resolver then
      some (⟨identity, pool.created, task_name⟩,
        { sessions := fun i => if i = identity then some ⟨pool.created, 1⟩ else pool.sessions i
          pending_tasks := (identity, task_name) :: pool.pending_tasks
          created := pool.created + 1 })
    else none

/-- Modelled from the spec: the release of a reservation, missing from the
sources.  It "decrements a per-identity live-reservation counter in the Pool",
removes its entry from the registry of pending tasks, and "must never itself
destroy the session". -/
def session_pool.release (pool : session_pool) (r : reservation) : session_pool where
  sessions := fun i =>
    if i = r.identity then
      (pool.sessions i).map (fun entry => ⟨entry.handle, entry.reservations - 1⟩)
    else pool.sessions i
  pending_tasks := pool.pending_tasks.erase (r.identity, r.task_name)
  created := pool.created

/-- Modelled from the spec: `remove_session(identity)`, missing from the
sources: it "immediately drops the pool's mapping entry and destroys the
underlying session resources, regardless of outstanding reservations". -/
def session_pool.remove_session (pool : session_pool) (identity : connection_spec) :
    session_pool where
  sessions := fun i => if i = identity then none else pool.sessions i
  pending_tasks := pool.pending_tasks
  created := pool.created

/-- The operations callers perform on the pool. -/
inductive pool_operation (ρ : Type) where
  | reserve (identity : connection_spec) (credential_resolver : ρ) (task_name : String)
  | release (r : reservation)
  | remove_session (identity : connection_spec)

/-- The pool after an operation; a reservation that cannot be made leaves the
pool as it was. -/
def session_pool.perform {ρ : Type} (connect : connection_spec → ρ → Bool)
    (pool : session_pool) : pool_operation ρ → session_pool
  | pool_operation.reserve identity credential_resolver task_name =>
    match pool.reserve connect identity credential_resolver task_name with
    | some (_, next) => next
    | none => pool
  | pool_operation.release r => pool.release r
  | pool_operation.remove_session identity => pool.remove_session identity

/-- The operation is the removal of the session of `identity`. -/
def pool_operation.removes {ρ : Type} (identity : connection_spec) :
    pool_operation ρ → Bool
  | pool_operation.remove_session i => decide (i = identity)
  | _ => false

/-- The operation is a reservation of `identity`. -/
def pool_operation.reserves {ρ : Type} (identity : connection_spec) :
    pool_operation ρ → Bool
  | pool_operation.reserve i _ _ => decide (i = identity)
  | _ => false

/-! ## The delete command

`Delete::operator()`, `execute_death_row`, `do_delete` and the two confirmation
functions of `src/swish/remote_folder/commands/delete.cpp`.  The message box,
the two factories, `CSftpDirectory::Delete`, the shell item array and
`announce_last_exception` are parameters; an item of the selection is taken to
hold a valid remote item id, of which the filename and the folder flag are
read. -/

/-- An `IParentAndItem` of the death row: the parent PIDL and, of the item
PIDL, what `remote_itemid_view` reads. -/
structure parent_and_item where
  parent_pidl : String
  filename : String
  is_folder : Bool
  deriving DecidableEq, Repr

/-- One interaction of the delete command with the outside. -/
inductive DeleteEvent where
  | dereference (index : Nat) (thrown : Option exception)
  | message_box (hwnd : Nat) (message caption : String) (answer : Int)
  | consumer_factory (hwnd : Nat) (thrown : Option exception)
  | provider_factory (task_name : String) (thrown : Option exception)
  | delete (directory item : String) (thrown : Option exception)
  | announce_last_exception (hwnd : Nat) (title suggestion : String)
  deriving DecidableEq, Repr

/-- The state the delete command runs in: the state of the outside and the
interactions recorded so far. -/
structure Desk (σ : Type) where
  remote : σ
  events : List DeleteEvent

/-- The outside of the delete command: `IsolationAwareMessageBoxW` (the button
pressed), the consumer factory, the provider factory (given the task name) and
`CSftpDirectory(parent_pidl, provider).Delete(item_pidl)`. -/
structure delete_environment (σ : Type) where
  message_box : Nat → String → String → σ → Int × σ
  consumer_factory : Nat → σ → Outcome Unit × σ
  provider_factory : String → σ → Outcome Unit × σ
  delete : String → String → σ → Outcome Unit × σ

/-- A shell item array: its items, and what dereferencing an iterator that is
at or past the end, followed by `try_cast`, gives (nothing sensible: an
exception, or whatever item). -/
structure shell_item_array where
  items : List parent_and_item
  past_the_end : Nat → Outcome parent_and_item

/-- The expression `try_cast(*it)` for an iterator at position `index`. -/
def shell_item_array.dereference (selection : shell_item_array) (index : Nat) :
    Outcome parent_and_item :=
  match selection.items[index]? with
  | some item => Outcome.returned item
  | none => selection.past_the_end index

/-- The button `IDYES` of a message box. -/
def IDYES : Int := 6

/-- Records an interaction of the delete command and passes its outcome on. -/
def recorded {α : Type} (event : Option exception → DeleteEvent)
    (call : σ → Outcome α × σ) (w : Desk σ) : Outcome α × Desk σ :=
  let r := call w.remote
  (r.1, ⟨r.2, w.events ++ [event r.1.thrown]⟩)

/-- The call of `IsolationAwareMessageBoxW`, recorded with its answer. -/
def show_message_box (env : delete_environment σ) (hwnd : Nat) (message caption : String)
    (w : Desk σ) : Int × Desk σ :=
  let r := env.message_box hwnd message caption w.remote
  (r.1, ⟨r.2, w.events ++ [DeleteEvent.message_box hwnd message caption r.1]⟩)

/-- The loop of `do_delete`: `CSftpDirectory::Delete` for each item in turn; an
exception ends the loop and leaves `do_delete`. -/
def delete_each (env : delete_environment σ) :
    List parent_and_item → Desk σ → Outcome Unit × Desk σ
  | [], w => (Outcome.returned (), w)
  | item :: rest, w =>
    match recorded (DeleteEvent.delete item.parent_pidl item.filename)
        (env.delete item.parent_pidl item.filename) w with
    | (Outcome.threw e, w1) => (Outcome.threw e, w1)
    | (Outcome.returned _, w1) => delete_each env rest w1

/-- The function `do_delete` of `delete.cpp`. -/
def do_delete (env : delete_environment σ) (hwnd_view : Nat)
    (death_row : List parent_and_item) (w : Desk σ) : Outcome Unit × Desk σ :=
  match recorded (DeleteEvent.consumer_factory hwnd_view) (env.consumer_factory hwnd_view) w with
  | (Outcome.threw e, w1) => (Outcome.threw e, w1)
  | (Outcome.returned _, w1) =>
    match recorded (DeleteEvent.provider_factory "Deleting files")
        (env.provider_factory "Deleting files") w1 with
    | (Outcome.threw e, w2) => (Outcome.threw e, w2)
    | (Outcome.returned _, w2) => delete_each env death_row w2

/-- The function `confirm_deletion` of `delete.cpp`. -/
def confirm_deletion (env : delete_environment σ) (hwnd_view : Nat) (filename : String)
    (is_folder : Bool) (w : Desk σ) : Bool × Desk σ :=
  if hwnd_view = 0 then (false, w)
  else
    let message :=
      if !is_folder then "Are you sure you want to permanently delete '" ++ filename ++ "'?"
      else
        "Are you sure you want to permanently delete the folder '" ++ filename ++
          "' and all of its contents?"
    match show_message_box env hwnd_view message
        (if is_folder then "Confirm Folder Delete" else "Confirm File Delete") w with
    | (ret, w1) => (decide (ret = IDYES), w1)

/-- The function `confirm_multiple_deletion` of `delete.cpp`. -/
def confirm_multiple_deletion (env : delete_environment σ) (hwnd_view : Nat)
    (item_count : Nat) (w : Desk σ) : Bool × Desk σ :=
  if hwnd_view = 0 then (false, w)
  else
    match show_message_box env hwnd_view
        ("Are you sure you want to permanently delete these " ++ toString item_count ++
          " items?")
        "Confirm Multiple Item Delete" w with
    | (ret, w1) => (decide (ret = IDYES), w1)

/-- The function `execute_death_row` of `delete.cpp`; with no item it does
nothing (the `assert` is not modelled). -/
def execute_death_row (env : delete_environment σ) (hwnd_view : Nat)
    (death_row : List parent_and_item) (w : Desk σ) : Outcome Unit × Desk σ :=
  match death_row with
  | [] => (Outcome.returned (), w)
  | [item] =>
    match confirm_deletion env hwnd_view item.filename item.is_folder w with
    | (go_ahead, w1) =>
      if go_ahead then do_delete env hwnd_view death_row w1 else (Outcome.returned (), w1)
  | _ :: _ :: _ =>
    match confirm_multiple_deletion env hwnd_view death_row.length w with
    | (go_ahead, w1) =>
      if go_ahead then do_delete env hwnd_view death_row w1 else (Outcome.returned (), w1)

/-- The loop `while(it++ != end)` of `Delete::operator()`.  `remaining` is the
distance from `it` to `end` when the condition is tested, so `it != end` is
`remaining ≠ 0`; the post-increment moves `it` on before the body dereferences
it. -/
def death_row_loop (selection : shell_item_array) :
    Nat → Nat → List parent_and_item → Desk σ → Outcome (List parent_and_item) × Desk σ
  | 0, _, death_row, w => (Outcome.returned death_row, w)
  | remaining + 1, it, death_row, w =>
    match recorded (DeleteEvent.dereference (it + 1))
        (fun s => (selection.dereference (it + 1), s)) w with
    | (Outcome.threw e, w1) => (Outcome.threw e, w1)
    | (Outcome.returned parent_and_item, w1) =>
      death_row_loop selection remaining (it + 1) (death_row ++ [parent_and_item]) w1

/-- The function `Delete::operator()` of `delete.cpp`: every exception is
announced and thrown again. -/
def Delete.call (env : delete_environment σ) (hwnd_view : Nat)
    (selection : shell_item_array) (w : Desk σ) : Outcome Unit × Desk σ :=
  let announced := fun (e : exception) (w1 : Desk σ) =>
    (Outcome.threw e,
      (⟨w1.remote, w1.events ++ [DeleteEvent.announce_last_exception hwnd_view
        "Unable to delete the item" "You might not have permission."]⟩ : Desk σ))
  match death_row_loop selection selection.items.length 0 [] w with
  | (Outcome.threw e, w1) => announced e w1
  | (Outcome.returned death_row, w1) =>
    match execute_death_row env hwnd_view death_row w1 with
    | (Outcome.threw e, w2) => announced e w2
    | (Outcome.returned _, w2) => (Outcome.returned (), w2)

/-- An outside in which the user presses the given button and everything else
succeeds. -/
def obliging_environment (answer : Int) : delete_environment Unit where
  message_box := fun _ _ _ s => (answer, s)
  consumer_factory := fun _ s => (Outcome.returned (), s)
  provider_factory := fun _ s => (Outcome.returned (), s)
  delete := fun _ _ s => (Outcome.returned (), s)

/-- The dialog that asks for the deletion of a death row: for one item the
message and the caption that name it, in the wording for a file or for a
folder; for several items the message that counts them. -/
def confirmation_dialog : List parent_and_item → String × String
  | [item] =>
    if item.is_folder then
      ("Are you sure you want to permanently delete the folder '" ++ item.filename ++
        "' and all of its contents?", "Confirm Folder Delete")
    else
      ("Are you sure you want to permanently delete '" ++ item.filename ++ "'?",
        "Confirm File Delete")
  | death_row =>
    ("Are you sure you want to permanently delete these " ++ toString death_row.length ++
      " items?", "Confirm Multiple Item Delete")

/-- The event of a deletion that returned. -/
def deleted (item : parent_and_item) : DeleteEvent :=
  DeleteEvent.delete item.parent_pidl item.filename none

/-! ## The progress sink of the disconnection

`disconnection_progress` and `waiting_ui` of
`src/swish/host_folder/commands/CloseSession.cpp`.  The task dialog runs in a
thread of its own and is a parameter: starting it (`run_task_dialog`), the two
calls made on `m_dialog.dialog()` and `dialog_has_been_dismissed()`.
`running_dialog::dialog()` throws the exception the dialog thread ended with,
if it did, so both calls made on the dialog can throw. -/

/-- One interaction of the sink with the task dialog. -/
inductive DialogEvent where
  | run_task_dialog (content : String)
  | invoke_command (thrown : Option exception)
  | content (text : String) (thrown : Option exception)
  | dialog_has_been_dismissed (answer : Bool)
  deriving DecidableEq, Repr

/-- The state the sink runs in: the state of the dialog thread and the
interactions recorded so far. -/
structure Screen (σ : Type) where
  remote : σ
  events : List DialogEvent

/-- The task dialog: `run_task_dialog(pending_tasks)`, the call
`m_dialog.dialog().invoke_command(m_dialog.dismissal_command_id())`, the call
`m_dialog.dialog().content(text)` and `m_dialog.dialog_has_been_dismissed()`. -/
structure task_dialog (σ : Type) where
  run_task_dialog : String → σ → σ
  invoke_command : σ → Outcome Unit × σ
  content : String → σ → Outcome Unit × σ
  dialog_has_been_dismissed : σ → Bool × σ

/-- The function `ui_content_text` of `CloseSession.cpp` (with the untranslated
texts). -/
def ui_content_text (pending_tasks : List String) : String :=
  "The following tasks are using the session:" ++ "\n\n" ++
    String.join (pending_tasks.map (fun task_name => "• " ++ task_name ++ "\n")) ++
    "\n" ++ "Waiting for them to finish."

/-- The class `waiting_ui`: it owns the running dialog. -/
structure waiting_ui where
  started_with : List String
  deriving DecidableEq, Repr

/-- The class `disconnection_progress`: `m_dialog` is empty until the dialog is
started. -/
structure disconnection_progress where
  m_dialog : Option waiting_ui
  deriving DecidableEq, Repr

/-- The constructor of `waiting_ui`: it starts the dialog. -/
def waiting_ui.create (dialog : task_dialog σ) (pending_tasks : List String)
    (w : Screen σ) : waiting_ui × Screen σ :=
  (⟨pending_tasks⟩,
    ⟨dialog.run_task_dialog (ui_content_text pending_tasks) w.remote,
      w.events ++ [DialogEvent.run_task_dialog (ui_content_text pending_tasks)]⟩)

/-- The member function `waiting_ui::update`. -/
def waiting_ui.update (dialog : task_dialog σ) (pending_tasks : List String)
    (w : Screen σ) : Outcome Bool × Screen σ :=
  if pending_tasks.isEmpty then
    let r := dialog.invoke_command w.remote
    match r.1 with
    | Outcome.threw e => (Outcome.threw e, ⟨r.2, w.events ++ [DialogEvent.invoke_command (some e)]⟩)
    | Outcome.returned _ =>
      (Outcome.returned true, ⟨r.2, w.events ++ [DialogEvent.invoke_command none]⟩)
  else
    let r := dialog.content (ui_content_text pending_tasks) w.remote
    match r.1 with
    | Outcome.threw e =>
      (Outcome.threw e,
        ⟨r.2, w.events ++ [DialogEvent.content (ui_content_text pending_tasks) (some e)]⟩)
    | Outcome.returned _ =>
      let d := dialog.dialog_has_been_dismissed r.2
      (Outcome.returned (!d.1),
        ⟨d.2, w.events ++ [DialogEvent.content (ui_content_text pending_tasks) none,
          DialogEvent.dialog_has_been_dismissed d.1]⟩)

/-- The function `disconnection_progress::operator()`: the result of the call
and the sink afterwards. -/
def disconnection_progress.call (dialog : task_dialog σ) (self : disconnection_progress)
    (pending_tasks : List String) (w : Screen σ) :
    Outcome Bool × disconnection_progress × Screen σ :=
  match self.m_dialog with
  | none =>
    if !pending_tasks.isEmpty then
      let created := waiting_ui.create dialog pending_tasks w
      (Outcome.returned true, ⟨some created.1⟩, created.2)
    else (Outcome.returned true, self, w)
  | some _ =>
    let r := waiting_ui.update dialog pending_tasks w
    (r.1, self, r.2)

/-- The sink and the screen after a sequence of calls, whatever each call
returned or threw. -/
def disconnection_progress.after_calls (dialog : task_dialog σ) :
    List (List String) → disconnection_progress × Screen σ → disconnection_progress × Screen σ
  | [], state => state
  | pending_tasks :: later, state =>
    disconnection_progress.after_calls dialog later
      (disconnection_progress.call dialog state.1 pending_tasks state.2).2

/-- A dialog whose thread ended with an exception before it was shown: every
call made on the dialog throws it, and it was never dismissed. -/
def failed_dialog : task_dialog Unit where
  run_task_dialog := fun _ s => s
  invoke_command := fun s => (Outcome.threw (exception.com_error E_ABORT none), s)
  content := fun _ s => (Outcome.threw (exception.com_error E_ABORT none), s)
  dialog_has_been_dismissed := fun s => (false, s)

/-- A dialog that works and that the user has dismissed or not, as given. -/
def shown_dialog (dismissed : Bool) : task_dialog Unit where
  run_task_dialog := fun _ s => s
  invoke_command := fun s => (Outcome.returned (), s)
  content := fun _ s => (Outcome.returned (), s)
  dialog_has_been_dismissed := fun s => (dismissed, s)

/-! ## Parsing of display names

`CHostFolder::parse_display_name` of `src/swish/shell_folder/HostFolder.cpp`.
A `wstring` is the list of its characters.  Positions and lengths are of the
unsigned type `size_type` of `bits` bits: sums and differences are taken
modulo `2 ^ bits`, and `npos` is its largest value.  The limits of
`swish/remotelimits.h` are not among the sources; they are parameters. -/

/-- The constants of `swish/remotelimits.h` that the sources name. -/
structure remotelimits where
  MIN_PORT : Int
  MAX_PORT : Int
  MAX_FILENAME_LENZ : Nat
  MAX_USERNAME_LENZ : Nat
  MAX_HOSTNAME_LENZ : Nat

/-- The `HRESULT` 0x80004005 as a signed 32-bit integer. -/
def E_FAIL : Int := -2147467259

/-- The largest value of `int`. -/
def INT_MAX : Int := 2147483647

/-- The value `wstring::npos`. -/
def npos (bits : Nat) : Nat := 2 ^ bits - 1

/-- The member function `wstring::find_first_of(c, pos)`: the position of the
first `c` at or after `pos`, or `npos`. -/
def find_first_of (bits : Nat) (str : List Char) (c : Char) (pos : Nat) : Nat :=
  if c ∈ str.drop pos then pos + (str.drop pos).indexOf c else npos bits

/-- The member function `wstring::substr(pos, count)`: it throws
`std::out_of_range` when `pos` is past the end, and stops at the end of the
string. -/
def substr (str : List Char) (pos count : Nat) : Outcome (List Char) :=
  if pos > str.length then Outcome.threw (exception.other "invalid string position")
  else Outcome.returned ((str.drop pos).take count)

/-- The characters `_wtoi` skips before the number. -/
def iswspace (c : Char) : Bool :=
  c == ' ' || c == '\t' || c == '\n' || c == '\r' || c == Char.ofNat 11 || c == Char.ofNat 12

/-- The value of the decimal digits a string starts with. -/
def leading_digits_value (s : List Char) : Nat :=
  (s.takeWhile Char.isDigit).foldl (fun value c => 10 * value + (c.toNat - 48)) 0

/-- The function `_wtoi` of the C runtime: white space, an optional sign, then
decimal digits up to the first other character; without digits the value is 0;
a value that does not fit `int` gives `INT_MAX` or `INT_MIN`. -/
def _wtoi (s : List Char) : Int :=
  match s.dropWhile iswspace with
  | '-' :: digits => max (-(leading_digits_value digits : Int)) (-INT_MAX - 1)
  | '+' :: digits => min (leading_digits_value digits : Int) INT_MAX
  | digits => min (leading_digits_value digits : Int) INT_MAX

/-- What `create_host_itemid(host, user, path, port)` is made of. -/
structure host_itemid where
  host : List Char
  user : List Char
  path : List Char
  port : Int
  deriving DecidableEq, Repr

/-- What `parse_display_name` returns: a copy of the root PIDL, or the root
PIDL followed by the PIDL that the subfolder of the host item parsed the path
into. -/
inductive parsed_name (π : Type) where
  | root_pidl
  | under_root (pidl_path : π)
  deriving DecidableEq, Repr

/-- The character that ends a string in an array. -/
def NUL : Char := Char.ofNat 0

/-- The constant `MAX_PATH` of the Windows headers. -/
def MAX_PATH : Nat := 260

/-- The function `StringCchCopyW(pszDest, cchDest, pszSrc)` for a destination
of at least one character: what the destination holds afterwards, the source
up to its first `NUL`, cut to `cchDest - 1` characters.  The source does not
look at the `HRESULT`. -/
def StringCchCopyW (cchDest : Nat) (pszSrc : List Char) : List Char :=
  (pszSrc.takeWhile (fun c => c != NUL)).take (cchDest - 1)

/-- The end of `parse_display_name`: the host item is created from the whole
path, the path is copied into the buffer `wszPath` of `MAX_PATH` characters,
the subfolder bound to the host item parses the content of the buffer
(`subfolder_parse`, which may fail), and the root PIDL is put in front. -/
def parse_in_subfolder {π : Type} (subfolder_parse : host_itemid → List Char → Outcome π)
    (strHost strUser strPath : List Char) (nPort : Int) : Outcome (parsed_name π) :=
  match subfolder_parse ⟨strHost, strUser, strPath, nPort⟩
      (StringCchCopyW MAX_PATH strPath) with
  | Outcome.threw e => Outcome.threw e
  | Outcome.returned pidl_path => Outcome.returned (parsed_name.under_root pidl_path)

/-- The member function `CHostFolder::parse_display_name`.  The second and the
third test after each search test `nAt` and `nColon` again, as the source
does; the length of `strPort` is `nAt - (nSlash + 1)`, as in the source. -/
def parse_display_name {π : Type} (limits : remotelimits) (bits : Nat)
    (subfolder_parse : host_itemid → List Char → Outcome π) (strDisplayName : List Char) :
    Outcome (parsed_name π) :=
  if strDisplayName = [] then Outcome.returned parsed_name.root_pidl
  else if (strDisplayName.take 7) ≠ "sftp://".toList then
    Outcome.threw (exception.com_error E_FAIL none)
  else
    let nAt := find_first_of bits strDisplayName '@' 7
    if nAt = npos bits then Outcome.threw (exception.com_error E_FAIL none)
    else
      let nColon := find_first_of bits strDisplayName ':' 7
      if nAt = npos bits then Outcome.threw (exception.com_error E_FAIL none)
      else if nColon ≤ nAt then Outcome.threw (exception.com_error E_FAIL none)
      else
        let nSlash := find_first_of bits strDisplayName '/' 7
        if nAt = npos bits then Outcome.threw (exception.com_error E_FAIL none)
        else if nColon ≤ nAt then Outcome.threw (exception.com_error E_FAIL none)
        else
          match substr strDisplayName 7 ((nAt + 2 ^ bits - 7) % 2 ^ bits),
            substr strDisplayName ((nAt + 1) % 2 ^ bits)
              ((nColon + 2 ^ bits - (nAt + 1) % 2 ^ bits) % 2 ^ bits),
            substr strDisplayName ((nColon + 1) % 2 ^ bits)
              ((nAt + 2 ^ bits - (nSlash + 1) % 2 ^ bits) % 2 ^ bits),
            substr strDisplayName ((nSlash + 1) % 2 ^ bits) (npos bits) with
          | Outcome.returned strUser, Outcome.returned strHost, Outcome.returned strPort,
              Outcome.returned strPath =>
            if strUser = [] ∨ strHost = [] ∨ strPort = [] ∨ strPath = [] then
              Outcome.threw (exception.com_error E_FAIL none)
            else
              let nPort := _wtoi strPort
              if nPort < limits.MIN_PORT ∨ nPort > limits.MAX_PORT then
                Outcome.threw (exception.com_error E_FAIL none)
              else parse_in_subfolder subfolder_parse strHost strUser strPath nPort
          | Outcome.threw e, _, _, _ => Outcome.threw e
          | _, Outcome.threw e, _, _ => Outcome.threw e
          | _, _, Outcome.threw e, _ => Outcome.threw e
          | _, _, _, Outcome.threw e => Outcome.threw e

/-- The limits of a usual build: ports from 0 to 65535. -/
def usual_limits : remotelimits where
  MIN_PORT := 0
  MAX_PORT := 65535
  MAX_FILENAME_LENZ := 256
  MAX_USERNAME_LENZ := 33
  MAX_HOSTNAME_LENZ := 256

/-- A subfolder that parses every path into itself. -/
def echo_subfolder : host_itemid → List Char → Outcome (List Char) :=
  fun _ path => Outcome.returned path

/-- The value of a string of decimal digits. -/
def decimal_value (digits : List Char) : Nat :=
  digits.foldl (fun value c => 10 * value + (c.toNat - 48)) 0

/-- The display name `sftp://user@host:port/path`. -/
def display_name_of (user host port path : List Char) : List Char :=
  "sftp://".toList ++ (user ++ '@' :: (host ++ ':' :: (port ++ '/' :: path)))

/-- None of the separators '@', ':' and '/' occurs in the string. -/
def separator_free (s : List Char) : Prop :=
  '@' ∉ s ∧ ':' ∉ s ∧ '/' ∉ s

/-! ## Remote item ids

`create_remote_itemid` and `remote_itemid_view` of
`src/swish/remote_folder/remote_pidl.hpp`.  The packed structure is a record;
a `WCHAR` array is the list of its elements, a string stored in it ends at the
first `NUL`.  The two dates are left out.  An assignment to an index outside
an array has undefined behaviour: `create_remote_itemid` has no result in the
model when the index of one of its three terminators is outside its array. -/

/-- The structure `detail::remote_item_id`. -/
structure remote_item_id where
  cb : Nat
  dwFingerprint : Nat
  fIsFolder : Bool
  fIsLink : Bool
  wszFilename : List Char
  wszOwner : List Char
  wszGroup : List Char
  uUid : Nat
  uGid : Nat
  dwPermissions : Nat
  uSize : Nat
  deriving DecidableEq, Repr

/-- The constant `remote_item_id::FINGERPRINT`. -/
def FINGERPRINT : Nat := 0x533aaf69

/-- The value `sizeof(remote_item_id)` of the structure packed to one byte:
44 bytes of scalar members and two bytes for each element of the three
arrays. -/
def sizeof_remote_item_id (limits : remotelimits) : Nat :=
  44 + 2 * limits.MAX_FILENAME_LENZ + 2 * limits.MAX_USERNAME_LENZ
    + 2 * limits.MAX_USERNAME_LENZ

/-- The member function `wstring::copy(dest, count)` on an array: at most
`count` characters of the string replace the first elements of the array. -/
def wstring_copy (source : List Char) (count : Nat) (dest : List Char) : List Char :=
  source.take count ++ dest.drop (source.take count).length

/-- The function `copy_unaligned_string`: the string that ends at the first
`NUL` of the array. -/
def copy_unaligned_string (source : List Char) : List Char :=
  source.takeWhile (fun c => c != NUL)

/-- The function `create_remote_itemid`.  The index of the terminator of
`wszFilename` is `MAX_HOSTNAME_LENZ - 1`, as in the source; the indices of the
three terminators are inside their arrays when `1 ≤ MAX_HOSTNAME_LENZ ≤
MAX_FILENAME_LENZ` and `1 ≤ MAX_USERNAME_LENZ`, and there is no result
otherwise.  The parameters `owner_id`, `group_id` and `permissions` are of 32
bits and `size` is of 64 bits. -/
def create_remote_itemid (limits : remotelimits) (filename : List Char)
    (is_folder is_link : Bool) (owner group : List Char)
    (owner_id group_id permissions size : Nat) : Option remote_item_id :=
  if 1 ≤ limits.MAX_HOSTNAME_LENZ ∧ limits.MAX_HOSTNAME_LENZ ≤ limits.MAX_FILENAME_LENZ
      ∧ 1 ≤ limits.MAX_USERNAME_LENZ then
    some {
      cb := sizeof_remote_item_id limits % 2 ^ 16
      dwFingerprint := FINGERPRINT
      wszFilename :=
        (wstring_copy filename limits.MAX_FILENAME_LENZ
          (List.replicate limits.MAX_FILENAME_LENZ NUL)).set
            (limits.MAX_HOSTNAME_LENZ - 1) NUL
      wszOwner :=
        (wstring_copy owner limits.MAX_USERNAME_LENZ
          (List.replicate limits.MAX_USERNAME_LENZ NUL)).set
            (limits.MAX_USERNAME_LENZ - 1) NUL
      wszGroup :=
        (wstring_copy group limits.MAX_USERNAME_LENZ
          (List.replicate limits.MAX_USERNAME_LENZ NUL)).set
            (limits.MAX_USERNAME_LENZ - 1) NUL
      fIsFolder := is_folder
      fIsLink := is_link
      uUid := owner_id % 2 ^ 32
      uGid := group_id % 2 ^ 32
      dwPermissions := permissions % 2 ^ 32
      uSize := size % 2 ^ 64 }
  else none

/-- Limits with hostnames shorter than filenames: filenames of up to 7
characters, names of users and hosts of up to 3. -/
def short_hostname_limits : remotelimits where
  MIN_PORT := 0
  MAX_PORT := 65535
  MAX_FILENAME_LENZ := 8
  MAX_USERNAME_LENZ := 4
  MAX_HOSTNAME_LENZ := 4

/-- The class `remote_itemid_view`: the item id it points to, if the pointer is
not null. -/
structure remote_itemid_view where
  m_itemid : Option remote_item_id
  deriving DecidableEq, Repr

/-- The member function `remote_itemid_view::valid`. -/
def remote_itemid_view.valid (limits : remotelimits) (view : remote_itemid_view) : Bool :=
  match view.m_itemid with
  | none => false
  | some itemid =>
    decide (itemid.cb = sizeof_remote_item_id limits) &&
      decide (itemid.dwFingerprint = FINGERPRINT)

/-- The pattern of every accessor of `remote_itemid_view`: it throws
`std::exception("PIDL is not a remote item")` unless the view is valid, and
returns the member otherwise. -/
def remote_itemid_view.read {α : Type} (limits : remotelimits) (view : remote_itemid_view)
    (member : remote_item_id → α) : Outcome α :=
  match view.m_itemid with
  | none => Outcome.threw (exception.other "PIDL is not a remote item")
  | some itemid =>
    if view.valid limits then Outcome.returned (member itemid)
    else Outcome.threw (exception.other "PIDL is not a remote item")

/-- The member function `remote_itemid_view::filename`. -/
def remote_itemid_view.filename (limits : remotelimits) (view : remote_itemid_view) :
    Outcome (List Char) :=
  view.read limits (fun itemid => copy_unaligned_string itemid.wszFilename)

/-- The member function `remote_itemid_view::owner`. -/
def remote_itemid_view.owner (limits : remotelimits) (view : remote_itemid_view) :
    Outcome (List Char) :=
  view.read limits (fun itemid => copy_unaligned_string itemid.wszOwner)

/-- The member function `remote_itemid_view::group`. -/
def remote_itemid_view.group (limits : remotelimits) (view : remote_itemid_view) :
    Outcome (List Char) :=
  view.read limits (fun itemid => copy_unaligned_string itemid.wszGroup)

/-- The member function `remote_itemid_view::owner_id`. -/
def remote_itemid_view.owner_id (limits : remotelimits) (view : remote_itemid_view) :
    Outcome Nat :=
  view.read limits (fun itemid => itemid.uUid)

/-- The member function `remote_itemid_view::group_id`. -/
def remote_itemid_view.group_id (limits : remotelimits) (view : remote_itemid_view) :
    Outcome Nat :=
  view.read limits (fun itemid => itemid.uGid)

/-- The member function `remote_itemid_view::is_folder`. -/
def remote_itemid_view.is_folder (limits : remotelimits) (view : remote_itemid_view) :
    Outcome Bool :=
  view.read limits (fun itemid => itemid.fIsFolder)

/-- The member function `remote_itemid_view::is_link`. -/
def remote_itemid_view.is_link (limits : remotelimits) (view : remote_itemid_view) :
    Outcome Bool :=
  view.read limits (fun itemid => itemid.fIsLink)

/-- The member function `remote_itemid_view::permissions`. -/
def remote_itemid_view.permissions (limits : remotelimits) (view : remote_itemid_view) :
    Outcome Nat :=
  view.read limits (fun itemid => itemid.dwPermissions)

/-- The member function `remote_itemid_view::size`. -/
def remote_itemid_view.size (limits : remotelimits) (view : remote_itemid_view) :
    Outcome Nat :=
  view.read limits (fun itemid => itemid.uSize)

/-- The string is stored whole and read back whole: it holds no `NUL` and is
shorter than the array. -/
def storable (s : List Char) (array_length : Nat) : Prop :=
  NUL ∉ s ∧ s.length < array_length

/-! ## Enumeration of a directory

`CSftpDirectory::GetEnum` of `SftpDirectory.cpp`.  The three filters and the
converter are lazy: for each entry of the listing, in order, the adaptors
evaluate the hidden filter, then the directory filter, then the non-directory
filter, then the converter, each only if the one before let the entry
through; `||` does not evaluate `is_directory` when its flag is set.  The
class `sftp_filesystem_item` is not among the sources: the accessors that only
`convert_directory_entry_to_pidl` reads are a parameter (`attributes`). -/

/-- Every call of `rename_non_atomic_overwrite` is one of the runs of
`fallback_run`. -/
theorem fallback_run_complete (session : authenticated_session σ) (from_ to_ : String)
    (w : World σ) :
    ∃ t, fallback_run from_ to_ (rename_non_atomic_overwrite session from_ to_ w).1 t ∧
      (rename_non_atomic_overwrite session from_ to_ w).2.trace = w.trace ++ t := by
  simp only [rename_non_atomic_overwrite, ssh_rename, ssh_remove_all]
  rcases h1 : session.rename to_ (to_ ++ ".swish_rename_temp")
    overwrite_behaviour.prevent_overwrite w.remote with ⟨r1, s1⟩
  cases r1 with
  | threw e => exact ⟨_, fallback_run.move_failed e, by simp⟩
  | returned u =>
    simp only
    rcases h2 : session.rename from_ to_ overwrite_behaviour.prevent_overwrite s1 with ⟨r2, s2⟩
    cases r2 with
    | threw e =>
      simp only
      exact ⟨_, fallback_run.rename_failed e
        (session.rename from_ to_ overwrite_behaviour.prevent_overwrite s2).1, by simp⟩
    | returned u2 =>
      simp only
      exact ⟨_, fallback_run.renamed
        (session.remove_all (to_ ++ ".swish_rename_temp") s2).1, by simp⟩

/-- Every call of `provider::rename` is one of the runs of `rename_run`. -/
theorem rename_run_complete (session : authenticated_session σ)
    (consumer : ISftpConsumer σ) (from_ to_ : String) (w : World σ) :
    ∃ t, rename_run from_ to_ (provider.rename session consumer from_ to_ w).1 t ∧
      (provider.rename session consumer from_ to_ w).2.trace = w.trace ++ t := by
  unfold provider.rename
  by_cases hfrom : from_ = ""
  · exact ⟨[], by simpa [hfrom] using rename_run.invalid (Or.inl hfrom), by simp [hfrom]⟩
  by_cases hto : to_ = ""
  · exact ⟨[], by simpa [hfrom, hto] using rename_run.invalid (Or.inr hto), by simp [hfrom, hto]⟩
  by_cases hne : from_ = to_
  · exact ⟨[], by simpa [hfrom, hto, hne] using rename_run.same hne, by simp [hfrom, hto, hne]⟩
  simp only [hfrom, hto, hne, if_false, ssh_rename]
  rcases h1 : session.rename from_ to_ overwrite_behaviour.prevent_overwrite w.remote
    with ⟨r1, s1⟩
  cases r1 with
  | returned u => exact ⟨_, rename_run.plain, by simp⟩
  | threw x =>
    cases x with
    | com_error hr d =>
      exact ⟨_, rename_run.first_uncaught _ (by intro e h; cases h), by simp⟩
    | invalid_argument m =>
      exact ⟨_, rename_run.first_uncaught _ (by intro e h; cases h), by simp⟩
    | other m =>
      exact ⟨_, rename_run.first_uncaught _ (by intro e h; cases h), by simp⟩
    | system_error e =>
      simp only [rename_retry_with_overwrite]
      by_cases hc : e.code = errc.file_exists
      · simp only [hc, if_true, OnConfirmOverwrite]
        rcases h2 : consumer.OnConfirmOverwrite from_ to_ s1 with ⟨hr, s2⟩
        by_cases hd : FAILED hr = true
        · simp only [hd, if_true]
          exact ⟨_, rename_run.exists_declined e hr hc hd, by simp⟩
        · have hg : FAILED hr = false := by simpa using hd
          simp only [hg, ssh_rename]
          rcases h3 : session.rename from_ to_ overwrite_behaviour.atomic_overwrite s2
            with ⟨r3, s3⟩
          cases r3 with
          | returned u => exact ⟨_, rename_run.atomic_done e hr hc hg, by simp⟩
          | threw x =>
            cases x with
            | com_error hr2 d =>
              exact ⟨_, rename_run.atomic_failed e hr _ hc hg (by intro e h; cases h), by simp⟩
            | invalid_argument m =>
              exact ⟨_, rename_run.atomic_failed e hr _ hc hg (by intro e h; cases h), by simp⟩
            | other m =>
              exact ⟨_, rename_run.atomic_failed e hr _ hc hg (by intro e h; cases h), by simp⟩
            | system_error e2 =>
              by_cases h2c : e2.code = errc.operation_not_supported
              · simp only [h2c, if_true]
                obtain ⟨t, ht, htr⟩ := fallback_run_complete session from_ to_
                  ⟨s3, w.trace ++
                    [Event.rename from_ to_ overwrite_behaviour.prevent_overwrite
                      (Outcome.threw (exception.system_error e))] ++
                    [Event.OnConfirmOverwrite from_ to_ hr] ++
                    [Event.rename from_ to_ overwrite_behaviour.atomic_overwrite
                      (Outcome.threw (exception.system_error e2))]⟩
                rcases h4 : rename_non_atomic_overwrite session from_ to_
                  ⟨s3, w.trace ++
                    [Event.rename from_ to_ overwrite_behaviour.prevent_overwrite
                      (Outcome.threw (exception.system_error e))] ++
                    [Event.OnConfirmOverwrite from_ to_ hr] ++
                    [Event.rename from_ to_ overwrite_behaviour.atomic_overwrite
                      (Outcome.threw (exception.system_error e2))]⟩ with ⟨r4, w4⟩
                rw [h4] at ht htr
                simp only at ht htr
                cases r4 with
                | threw x =>
                  exact ⟨_, rename_run.unsupported_failed e e2 hr x t hc hg h2c ht,
                    by simp [htr]⟩
                | returned u =>
                  exact ⟨_, rename_run.unsupported_done e e2 hr t hc hg h2c ht,
                    by simp [htr]⟩
              · simp only [h2c, if_false]
                exact ⟨_, rename_run.atomic_failed e hr _ hc hg
                  (by intro e3 h; cases h; exact h2c), by simp⟩
      · simp only [hc, if_false, ssh_exists]
        rcases h2 : session.exists_ to_ s1 with ⟨r2, s2⟩
        cases r2 with
        | threw x => exact ⟨_, rename_run.check_failed e x hc, by simp⟩
        | returned b =>
          cases b with
          | false => exact ⟨_, rename_run.unobstructed e hc, by simp⟩
          | true =>
            simp only [OnConfirmOverwrite]
            rcases h3 : consumer.OnConfirmOverwrite from_ to_ s2 with ⟨hr, s3⟩
            by_cases hd : FAILED hr = true
            · simp only [hd, if_true]
              exact ⟨_, rename_run.stat_declined e hr hc hd, by simp⟩
            · have hg : FAILED hr = false := by simpa using hd
              simp only [hg]
              obtain ⟨t, ht, htr⟩ := fallback_run_complete session from_ to_
                ⟨s3, w.trace ++
                  [Event.rename from_ to_ overwrite_behaviour.prevent_overwrite
                    (Outcome.threw (exception.system_error e))] ++
                  [Event.exists_ to_ (Outcome.returned true)] ++
                  [Event.OnConfirmOverwrite from_ to_ hr]⟩
              rcases h4 : rename_non_atomic_overwrite session from_ to_
                ⟨s3, w.trace ++
                  [Event.rename from_ to_ overwrite_behaviour.prevent_overwrite
                    (Outcome.threw (exception.system_error e))] ++
                  [Event.exists_ to_ (Outcome.returned true)] ++
                  [Event.OnConfirmOverwrite from_ to_ hr]⟩ with ⟨r4, w4⟩
              rw [h4] at ht htr
              simp only at ht htr
              cases r4 with
              | threw x =>
                exact ⟨_, rename_run.stat_failed e hr x t hc hg ht, by simp [htr]⟩
              | returned u =>
                exact ⟨_, rename_run.stat_done e hr t hc hg ht, by simp [htr]⟩

/-- A call of `provider::rename` that starts with an empty trace is described by
`rename_run`. -/
theorem rename_run_fresh (session : authenticated_session σ)
    (consumer : ISftpConsumer σ) (from_ to_ : String) (s : σ) :
    rename_run from_ to_ (provider.rename session consumer from_ to_ ⟨s, []⟩).1
      (provider.rename session consumer from_ to_ ⟨s, []⟩).2.trace := by
  obtain ⟨t, hrun, htrace⟩ := rename_run_complete session consumer from_ to_ ⟨s, []⟩
  rw [htrace]
  simpa using hrun

/-- What `guarded` means: every destructive event of a guarded trace is
preceded by a granted confirmation. -/
theorem guarded_sound (from_ to_ : String) (pre : List Event) :
    ∀ (granted : Bool) (post : List Event) (ev : Event),
      guarded from_ to_ granted (pre ++ ev :: post) = true →
      destructive from_ to_ ev = true →
      granted = true ∨
        ∃ hr, Event.OnConfirmOverwrite from_ to_ hr ∈ pre ∧ FAILED hr = false := by
  induction pre with
  | nil =>
    intro granted post ev hg hd
    simp [guarded, hd] at hg
    exact Or.inl hg.1
  | cons a pre ih =>
    intro granted post ev hg hd
    simp only [List.cons_append, guarded, Bool.and_eq_true] at hg
    rcases ih _ post ev hg.2 hd with h | ⟨hr, hmem, hok⟩
    · simp only [Bool.or_eq_true] at h
      rcases h with h | h
      · exact Or.inl h
      · right
        cases a with
        | OnConfirmOverwrite old_file new_file hr =>
          simp only [grants, Bool.and_eq_true, decide_eq_true_eq, Bool.not_eq_true'] at h
          obtain ⟨⟨h1, h2⟩, h3⟩ := h
          subst h1 h2
          exact ⟨hr, by simp, h3⟩
        | rename _ _ _ _ => simp [grants] at h
        | exists_ _ _ => simp [grants] at h
        | remove_all _ _ => simp [grants] at h
    · exact Or.inr ⟨hr, by simp [hmem], hok⟩

/-- The temporary path of the fallback differs from the target. -/
theorem temporary_ne_target (p : String) : p ++ ".swish_rename_temp" ≠ p := by
  intro h
  have hlen := congrArg String.length h
  rw [String.length_append] at hlen
  have : (".swish_rename_temp" : String).length = 18 := by decide
  omega

/-- After a reservation the pool holds the session the reservation borrows. -/
theorem reserve_holds_session {ρ : Type} (connect : connection_spec → ρ → Bool)
    (pool next : session_pool) (identity : connection_spec) (credential_resolver : ρ)
    (task_name : String) (r : reservation)
    (h : pool.reserve connect identity credential_resolver task_name = some (r, next)) :
    ∃ n, next.sessions identity = some ⟨r.session, n⟩ := by
  unfold session_pool.reserve at h
  split at h
  · rename_i existing hex
    simp only [Option.some.injEq, Prod.mk.injEq] at h
    obtain ⟨hr, hnext⟩ := h
    subst hr hnext
    exact ⟨existing.reservations + 1, by simp⟩
  · split at h
    · simp only [Option.some.injEq, Prod.mk.injEq] at h
      obtain ⟨hr, hnext⟩ := h
      subst hr hnext
      exact ⟨1, by simp⟩
    · cases h

/-- An operation other than the removal of the session of `identity` keeps the
session instance the pool holds for `identity`. -/
theorem perform_keeps_session {ρ : Type} (connect : connection_spec → ρ → Bool)
    (pool : session_pool) (identity : connection_spec) (op : pool_operation ρ)
    (handle n : Nat) (hheld : pool.sessions identity = some ⟨handle, n⟩)
    (hop : op.removes identity = false) :
    ∃ m, (pool.perform connect op).sessions identity = some ⟨handle, m⟩ := by
  cases op with
  | reserve i resolver task =>
    simp only [session_pool.perform, session_pool.reserve]
    by_cases hi : i = identity
    · subst hi
      simp [hheld]
    · cases hsess : pool.sessions i with
      | some existing => simp [hsess, Ne.symm hi, hheld]
      | none =>
        by_cases hc : connect i resolver = true
        · simp [hsess, hc, Ne.symm hi, hheld]
        · simp [hsess, hc, hheld]
  | release r =>
    by_cases hi : identity = r.identity
    · simp only [session_pool.perform, session_pool.release, hi, if_true]
      rw [← hi, hheld]
      exact ⟨n - 1, rfl⟩
    · simp [session_pool.perform, session_pool.release, hi, hheld]
  | remove_session i =>
    have hi : ¬ identity = i := by
      intro h
      simp [pool_operation.removes, h] at hop
    simp [session_pool.perform, session_pool.remove_session, hi, hheld]

/-- Operations none of which removes the session of `identity` keep the
session instance the pool holds for `identity`. -/
theorem perform_all_keeps_session {ρ : Type} (connect : connection_spec → ρ → Bool)
    (identity : connection_spec) (handle : Nat) (ops : List (pool_operation ρ)) :
    ∀ (pool : session_pool) (n : Nat), pool.sessions identity = some ⟨handle, n⟩ →
      (∀ op ∈ ops, op.removes identity = false) →
      ∃ m, (ops.foldl (session_pool.perform connect) pool).sessions identity
        = some ⟨handle, m⟩ := by
  induction ops with
  | nil =>
    intro pool n hheld _
    exact ⟨n, hheld⟩
  | cons op ops ih =>
    intro pool n hheld hops
    obtain ⟨m, hm⟩ := perform_keeps_session connect pool identity op handle n hheld
      (hops op (by simp))
    exact ih (pool.perform connect op) m hm (fun o ho => hops o (by simp [ho]))

/-- An operation other than a reservation of `identity` does not give the pool
a session for `identity`. -/
theorem perform_keeps_absent {ρ : Type} (connect : connection_spec → ρ → Bool)
    (pool : session_pool) (identity : connection_spec) (op : pool_operation ρ)
    (habsent : pool.sessions identity = none) (hop : op.reserves identity = false) :
    (pool.perform connect op).sessions identity = none := by
  cases op with
  | reserve i resolver task =>
    have hi : ¬ identity = i := by
      intro h
      simp [pool_operation.reserves, h] at hop
    simp only [session_pool.perform, session_pool.reserve]
    cases hsess : pool.sessions i with
    | some existing => simp [hi, habsent]
    | none =>
      by_cases hc : connect i resolver = true
      · simp [hc, hi, habsent]
      · simp [hc, habsent]
  | release r =>
    by_cases hi : identity = r.identity
    · simp only [session_pool.perform, session_pool.release, hi, if_true]
      rw [← hi, habsent]
      rfl
    · simp [session_pool.perform, session_pool.release, hi, habsent]
  | remove_session i =>
    by_cases hi : identity = i
    · simp [session_pool.perform, session_pool.remove_session, hi]
    · simp [session_pool.perform, session_pool.remove_session, hi, habsent]

/-- Operations none of which reserves `identity` do not give the pool a session
for `identity`. -/
theorem perform_all_keeps_absent {ρ : Type} (connect : connection_spec → ρ → Bool)
    (identity : connection_spec) (ops : List (pool_operation ρ)) :
    ∀ pool : session_pool, pool.sessions identity = none →
      (∀ op ∈ ops, op.reserves identity = false) →
      (ops.foldl (session_pool.perform connect) pool).sessions identity = none := by
  induction ops with
  | nil =>
    intro pool habsent _
    exact habsent
  | cons op ops ih =>
    intro pool habsent hops
    exact ih (pool.perform connect op)
      (perform_keeps_absent connect pool identity op habsent (hops op (by simp)))
      (fun o ho => hops o (by simp [ho]))

/-- The loop of `do_delete` only adds events. -/
theorem delete_each_extends (env : delete_environment σ) (death_row : List parent_and_item) :
    ∀ w : Desk σ, ∃ t, (delete_each env death_row w).2.events = w.events ++ t := by
  induction death_row with
  | nil =>
    intro w
    exact ⟨[], by simp [delete_each]⟩
  | cons item rest ih =>
    intro w
    simp only [delete_each, recorded]
    rcases hdel : env.delete item.parent_pidl item.filename w.remote with ⟨r, s1⟩
    cases r with
    | threw e => exact ⟨_, rfl⟩
    | returned u =>
      obtain ⟨t, ht⟩ := ih ⟨s1, w.events ++
        [DeleteEvent.delete item.parent_pidl item.filename (Outcome.returned u).thrown]⟩
      exact ⟨[DeleteEvent.delete item.parent_pidl item.filename (Outcome.returned u).thrown]
        ++ t, by rw [ht]; simp⟩

/-- When the loop of `do_delete` returns, it has deleted every item once, in
order, and nothing else happened. -/
theorem delete_each_returned (env : delete_environment σ) (death_row : List parent_and_item) :
    ∀ w : Desk σ, (delete_each env death_row w).1 = Outcome.returned () →
      (delete_each env death_row w).2.events = w.events ++ death_row.map deleted := by
  induction death_row with
  | nil =>
    intro w _
    simp [delete_each]
  | cons item rest ih =>
    intro w hreturned
    simp only [delete_each, recorded] at hreturned ⊢
    rcases hdel : env.delete item.parent_pidl item.filename w.remote with ⟨r, s1⟩
    rw [hdel] at hreturned
    cases r with
    | threw e => simp at hreturned
    | returned u =>
      simp only at hreturned ⊢
      rw [ih _ hreturned]
      simp [deleted, Outcome.thrown]

/-- The function `do_delete` only adds events. -/
theorem do_delete_extends (env : delete_environment σ) (hwnd_view : Nat)
    (death_row : List parent_and_item) (w : Desk σ) :
    ∃ t, (do_delete env hwnd_view death_row w).2.events = w.events ++ t := by
  simp only [do_delete, recorded]
  rcases hc : env.consumer_factory hwnd_view w.remote with ⟨r1, s1⟩
  cases r1 with
  | threw e => exact ⟨_, rfl⟩
  | returned u1 =>
    simp only
    rcases hp : env.provider_factory "Deleting files" s1 with ⟨r2, s2⟩
    cases r2 with
    | threw e =>
      exact ⟨[DeleteEvent.consumer_factory hwnd_view (Outcome.returned u1).thrown,
        DeleteEvent.provider_factory "Deleting files" (some e)], by simp [Outcome.thrown]⟩
    | returned u2 =>
      simp only
      obtain ⟨t, ht⟩ := delete_each_extends env death_row
        ⟨s2, w.events ++ [DeleteEvent.consumer_factory hwnd_view (Outcome.returned u1).thrown] ++
          [DeleteEvent.provider_factory "Deleting files" (Outcome.returned u2).thrown]⟩
      exact ⟨[DeleteEvent.consumer_factory hwnd_view (Outcome.returned u1).thrown,
        DeleteEvent.provider_factory "Deleting files" (Outcome.returned u2).thrown] ++ t,
        by rw [ht]; simp⟩

/-- When `do_delete` returns, it has called the two factories and then deleted
every item once, in order. -/
theorem do_delete_returned (env : delete_environment σ) (hwnd_view : Nat)
    (death_row : List parent_and_item) (w : Desk σ)
    (hreturned : (do_delete env hwnd_view death_row w).1 = Outcome.returned ()) :
    (do_delete env hwnd_view death_row w).2.events
      = w.events ++ [DeleteEvent.consumer_factory hwnd_view none,
          DeleteEvent.provider_factory "Deleting files" none] ++ death_row.map deleted := by
  simp only [do_delete, recorded] at hreturned ⊢
  rcases hc : env.consumer_factory hwnd_view w.remote with ⟨r1, s1⟩
  rw [hc] at hreturned
  cases r1 with
  | threw e => simp at hreturned
  | returned u1 =>
    simp only at hreturned ⊢
    rcases hp : env.provider_factory "Deleting files" s1 with ⟨r2, s2⟩
    rw [hp] at hreturned
    cases r2 with
    | threw e => simp at hreturned
    | returned u2 =>
      simp only at hreturned ⊢
      rw [delete_each_returned env death_row _ hreturned]
      simp [Outcome.thrown]

/-- With a window, `execute_death_row` on a death row that is not empty shows
the dialog of `confirmation_dialog` and goes on to `do_delete` exactly when the
answer is `IDYES`. -/
theorem execute_death_row_asks (env : delete_environment σ) (hwnd_view : Nat)
    (item : parent_and_item) (rest : List parent_and_item) (s : σ)
    (hwindow : hwnd_view ≠ 0) :
    execute_death_row env hwnd_view (item :: rest) ⟨s, []⟩
      = if (env.message_box hwnd_view (confirmation_dialog (item :: rest)).1
            (confirmation_dialog (item :: rest)).2 s).1 = IDYES then
          do_delete env hwnd_view (item :: rest)
            ⟨(env.message_box hwnd_view (confirmation_dialog (item :: rest)).1
                (confirmation_dialog (item :: rest)).2 s).2,
              [DeleteEvent.message_box hwnd_view (confirmation_dialog (item :: rest)).1
                (confirmation_dialog (item :: rest)).2 IDYES]⟩
        else
          (Outcome.returned (),
            ⟨(env.message_box hwnd_view (confirmation_dialog (item :: rest)).1
                (confirmation_dialog (item :: rest)).2 s).2,
              [DeleteEvent.message_box hwnd_view (confirmation_dialog (item :: rest)).1
                (confirmation_dialog (item :: rest)).2
                (env.message_box hwnd_view (confirmation_dialog (item :: rest)).1
                  (confirmation_dialog (item :: rest)).2 s).1]⟩) := by
  cases rest with
  | nil =>
    cases hfolder : item.is_folder <;>
    · simp only [execute_death_row, confirm_deletion, show_message_box, hwindow, hfolder,
        confirmation_dialog, if_false, if_true, Bool.not_false, Bool.not_true,
        Bool.false_eq_true, List.nil_append]
      split <;> simp_all
  | cons second more =>
    simp only [execute_death_row, confirm_multiple_deletion, show_message_box, hwindow,
      confirmation_dialog, if_false, List.nil_append]
    split <;> simp_all

/-- Once the sink has its dialog it keeps it. -/
theorem after_calls_keeps_dialog (dialog : task_dialog σ) (calls : List (List String)) :
    ∀ (state : disconnection_progress × Screen σ) (ui : waiting_ui),
      state.1.m_dialog = some ui →
      (disconnection_progress.after_calls dialog calls state).1.m_dialog = some ui := by
  induction calls with
  | nil =>
    intro state ui h
    exact h
  | cons pending later ih =>
    intro state ui h
    simp only [disconnection_progress.after_calls]
    apply ih
    simp [disconnection_progress.call, h]

/-- A sink without dialog that was only called with empty lists is as it was,
and so is the screen; a sink that has its dialog was called with a list that
is not empty. -/
theorem after_calls_without_tasks (dialog : task_dialog σ) (calls : List (List String)) :
    ∀ state : disconnection_progress × Screen σ, state.1.m_dialog = none →
      ((∀ p ∈ calls, p = []) → disconnection_progress.after_calls dialog calls state = state)
      ∧ ((disconnection_progress.after_calls dialog calls state).1.m_dialog ≠ none →
          ∃ p ∈ calls, p ≠ []) := by
  induction calls with
  | nil =>
    intro state h
    exact ⟨fun _ => rfl, fun hne => absurd h hne⟩
  | cons pending later ih =>
    intro state h
    cases pending with
    | nil =>
      have hstep : (disconnection_progress.call dialog state.1 [] state.2).2 = state := by
        simp [disconnection_progress.call, h]
      simp only [disconnection_progress.after_calls, hstep]
      obtain ⟨h1, h2⟩ := ih state h
      refine ⟨fun hall => h1 (fun p hp => hall p (by simp [hp])), fun hne => ?_⟩
      obtain ⟨p, hp, hpne⟩ := h2 hne
      exact ⟨p, by simp [hp], hpne⟩
    | cons task more =>
      refine ⟨fun hall => ?_, fun _ => ⟨task :: more, by simp, by simp⟩⟩
      have := hall (task :: more) (by simp)
      simp at this

/-- The index of a character behind a prefix without it. -/
theorem indexOf_after (before after : List Char) (c : Char) (hbefore : c ∉ before) :
    (before ++ c :: after).indexOf c = before.length := by
  induction before with
  | nil => simp
  | cons b rest ih =>
    have hb : b ≠ c := fun h => hbefore (by simp [h])
    have hrest : c ∉ rest := fun h => hbefore (by simp [h])
    simp only [List.cons_append, List.length_cons]
    rw [List.indexOf_cons_ne _ hb, ih hrest]

/-- The position `find_first_of` finds behind a prefix without the character. -/
theorem find_first_of_after (bits : Nat) (front before after : List Char) (c : Char)
    (hfront : front.length = 7) (hbefore : c ∉ before) :
    find_first_of bits (front ++ (before ++ c :: after)) c 7 = 7 + before.length := by
  have hdrop : (front ++ (before ++ c :: after)).drop 7 = before ++ c :: after := by
    rw [← hfront]
    exact List.drop_left front _
  unfold find_first_of
  rw [hdrop]
  have hmem : c ∈ before ++ c :: after := by simp
  rw [if_pos hmem, indexOf_after before after c hbefore]

/-- A difference of `size_type` that does not wrap. -/
theorem size_type_sub (modulus a b : Nat) (hle : b ≤ a) (ha : a < modulus) :
    (a + modulus - b) % modulus = a - b := by
  have h : a + modulus - b = (a - b) + modulus := by omega
  rw [h, Nat.add_mod_right]
  exact Nat.mod_eq_of_lt (by omega)

/-- A difference of `size_type` that wraps. -/
theorem size_type_sub_wraps (modulus a b : Nat) (hlt : a < b) (hb : b ≤ modulus) :
    (a + modulus - b) % modulus = a + modulus - b :=
  Nat.mod_eq_of_lt (by omega)

/-- No decimal digit is a separator, a sign or white space. -/
theorem digit_is_plain (c : Char) (h : c.isDigit = true) :
    c ≠ '@' ∧ c ≠ ':' ∧ c ≠ '/' ∧ c ≠ '-' ∧ c ≠ '+' ∧ iswspace c = false := by
  have hval : 48 ≤ c.val.toNat ∧ c.val.toNat ≤ 57 := by
    simp only [Char.isDigit, Bool.and_eq_true, decide_eq_true_eq] at h
    exact ⟨h.1, h.2⟩
  have hne : ∀ d : Char, (d.val.toNat < 48 ∨ 57 < d.val.toNat) → c ≠ d := by
    intro d hd hcd
    rw [hcd] at hval
    omega
  refine ⟨hne _ (by decide), hne _ (by decide), hne _ (by decide), hne _ (by decide),
    hne _ (by decide), ?_⟩
  have h1 := hne ' ' (by decide)
  have h2 := hne '\t' (by decide)
  have h3 := hne '\n' (by decide)
  have h4 := hne '\r' (by decide)
  have h5 := hne (Char.ofNat 11) (by decide)
  have h6 := hne (Char.ofNat 12) (by decide)
  simp [iswspace, h1, h2, h3, h4, h5, h6]

/-- The digits a string starts with, when a string of digits is followed by a
slash. -/
theorem leading_digits_before_slash (port path : List Char)
    (hdigits : ∀ c ∈ port, c.isDigit = true) :
    leading_digits_value (port ++ '/' :: path) = decimal_value port := by
  unfold leading_digits_value decimal_value
  congr 1
  induction port with
  | nil => simp [List.takeWhile]
  | cons d rest ih =>
    have hd := hdigits d (by simp)
    simp only [List.cons_append, List.takeWhile_cons, hd, if_true]
    rw [ih (fun c hc => hdigits c (by simp [hc]))]

/-- What `_wtoi` reads from a string of digits followed by a slash. -/
theorem wtoi_before_slash (port path : List Char) (hport : port ≠ [])
    (hdigits : ∀ c ∈ port, c.isDigit = true) :
    _wtoi (port ++ '/' :: path) = min (decimal_value port : Int) INT_MAX := by
  cases port with
  | nil => exact absurd rfl hport
  | cons d rest =>
    obtain ⟨_, _, _, hminus, hplus, hspace⟩ := digit_is_plain d (hdigits d (by simp))
    have hvalue := leading_digits_before_slash (d :: rest) path hdigits
    unfold _wtoi
    simp only [List.cons_append, List.dropWhile_cons, hspace, Bool.false_eq_true, if_false]
    simp only [List.cons_append] at hvalue
    split
    · rename_i heq
      simp only [List.cons.injEq] at heq
      exact absurd heq.1 hminus
    · rename_i heq
      simp only [List.cons.injEq] at heq
      exact absurd heq.1 hplus
    · rw [hvalue]

/-- The substring that starts right behind a prefix. -/
theorem substr_behind (front rest : List Char) (pos count : Nat) (hpos : pos = front.length) :
    substr (front ++ rest) pos count = Outcome.returned (rest.take count) := by
  subst hpos
  unfold substr
  rw [if_neg (by simp), List.drop_left]

/-- How `parse_display_name` treats a name `sftp://user@host:port/path` whose
user and host are not empty and hold no separator, whose port is a string of
digits that is not empty, and whose path is not empty: it tests the value that
`_wtoi` reads from the port against the limits, and goes on with the four
parts. -/
theorem parse_well_formed {π : Type} (limits : remotelimits) (bits : Nat)
    (subfolder_parse : host_itemid → List Char → Outcome π) (user host port path : List Char)
    (huser : user ≠ []) (huser_free : separator_free user)
    (hhost : host ≠ []) (hhost_free : separator_free host)
    (hport : port ≠ []) (hdigits : ∀ c ∈ port, c.isDigit = true) (hpath : path ≠ [])
    (hfits : 2 * (display_name_of user host port path).length ≤ 2 ^ bits) :
    parse_display_name limits bits subfolder_parse (display_name_of user host port path)
      = if min (decimal_value port : Int) INT_MAX < limits.MIN_PORT
            ∨ min (decimal_value port : Int) INT_MAX > limits.MAX_PORT then
          Outcome.threw (exception.com_error E_FAIL none)
        else
          parse_in_subfolder subfolder_parse host user path
            (min (decimal_value port : Int) INT_MAX) := by
  have hfront : "sftp://".toList.length = 7 := rfl
  have hlen : (display_name_of user host port path).length
      = 7 + user.length + 1 + host.length + 1 + port.length + 1 + path.length := by
    simp only [display_name_of, List.length_append, List.length_cons, hfront]
    omega
  rw [hlen] at hfits
  generalize hmod : 2 ^ bits = modulus at hfits
  have hport_free : '@' ∉ port ∧ ':' ∉ port ∧ '/' ∉ port := by
    refine ⟨fun h => ?_, fun h => ?_, fun h => ?_⟩
    · exact (digit_is_plain _ (hdigits _ h)).1 rfl
    · exact (digit_is_plain _ (hdigits _ h)).2.1 rfl
    · exact (digit_is_plain _ (hdigits _ h)).2.2.1 rfl
  obtain ⟨hu1, hu2, hu3⟩ := huser_free
  obtain ⟨hh1, hh2, hh3⟩ := hhost_free
  obtain ⟨hp1, hp2, hp3⟩ := hport_free
  have hAt : find_first_of bits (display_name_of user host port path) '@' 7
      = 7 + user.length :=
    find_first_of_after bits _ user _ '@' hfront hu1
  have hColon : find_first_of bits (display_name_of user host port path) ':' 7
      = 7 + (user.length + (host.length + 1)) := by
    have h := find_first_of_after bits "sftp://".toList (user ++ '@' :: host)
      (port ++ '/' :: path) ':' hfront (by simp [hu2, hh2])
    simpa [display_name_of, List.append_assoc] using h
  have hSlash : find_first_of bits (display_name_of user host port path) '/' 7
      = 7 + (user.length + (host.length + (port.length + 1) + 1)) := by
    have h := find_first_of_after bits "sftp://".toList (user ++ '@' :: (host ++ ':' :: port))
      path '/' hfront (by simp [hu3, hh3, hp3])
    simpa [display_name_of, List.append_assoc] using h
  have hnpos : npos bits = modulus - 1 := by rw [npos, hmod]
  have hUser : substr (display_name_of user host port path) 7
      ((7 + user.length + modulus - 7) % modulus) = Outcome.returned user := by
    rw [size_type_sub modulus _ 7 (by omega) (by omega)]
    have h := substr_behind "sftp://".toList (user ++ '@' :: (host ++ ':' :: (port ++ '/' :: path)))
      7 (7 + user.length - 7) hfront.symm
    rw [display_name_of, h]
    congr 1
    rw [show 7 + user.length - 7 = user.length by omega]
    exact List.take_left user _
  have hHost : substr (display_name_of user host port path)
      ((7 + user.length + 1) % modulus)
      ((7 + (user.length + (host.length + 1)) + modulus - (7 + user.length + 1) % modulus)
        % modulus) = Outcome.returned host := by
    rw [Nat.mod_eq_of_lt (show 7 + user.length + 1 < modulus by omega),
      size_type_sub modulus _ _ (by omega) (by omega)]
    have h := substr_behind ("sftp://".toList ++ (user ++ ['@']))
      (host ++ ':' :: (port ++ '/' :: path)) (7 + user.length + 1)
      (7 + (user.length + (host.length + 1)) - (7 + user.length + 1))
      (by simp [hfront]; omega)
    have hname : display_name_of user host port path
        = ("sftp://".toList ++ (user ++ ['@'])) ++ (host ++ ':' :: (port ++ '/' :: path)) := by
      simp [display_name_of, List.append_assoc]
    rw [hname, h]
    congr 1
    rw [show 7 + (user.length + (host.length + 1)) - (7 + user.length + 1) = host.length by omega]
    exact List.take_left host _
  have hPort : substr (display_name_of user host port path)
      ((7 + (user.length + (host.length + 1)) + 1) % modulus)
      ((7 + user.length + modulus
          - (7 + (user.length + (host.length + (port.length + 1) + 1)) + 1) % modulus)
        % modulus) = Outcome.returned (port ++ '/' :: path) := by
    rw [Nat.mod_eq_of_lt (show 7 + (user.length + (host.length + 1)) + 1 < modulus by omega),
      Nat.mod_eq_of_lt
        (show 7 + (user.length + (host.length + (port.length + 1) + 1)) + 1 < modulus by omega),
      size_type_sub_wraps modulus _ _ (by omega) (by omega)]
    have h := substr_behind ("sftp://".toList ++ (user ++ '@' :: (host ++ [':'])))
      (port ++ '/' :: path) (7 + (user.length + (host.length + 1)) + 1)
      (7 + user.length + modulus
        - (7 + (user.length + (host.length + (port.length + 1) + 1)) + 1))
      (by simp [hfront]; omega)
    have hname : display_name_of user host port path
        = ("sftp://".toList ++ (user ++ '@' :: (host ++ [':']))) ++ (port ++ '/' :: path) := by
      simp [display_name_of, List.append_assoc]
    rw [hname, h]
    congr 1
    apply List.take_of_length_le
    simp only [List.length_append, List.length_cons]
    omega
  have hPath : substr (display_name_of user host port path)
      ((7 + (user.length + (host.length + (port.length + 1) + 1)) + 1) % modulus)
      (npos bits) = Outcome.returned path := by
    rw [Nat.mod_eq_of_lt
      (show 7 + (user.length + (host.length + (port.length + 1) + 1)) + 1 < modulus by omega)]
    have h := substr_behind
      ("sftp://".toList ++ (user ++ '@' :: (host ++ ':' :: (port ++ ['/'])))) path
      (7 + (user.length + (host.length + (port.length + 1) + 1)) + 1) (npos bits)
      (by simp [hfront]; omega)
    have hname : display_name_of user host port path
        = ("sftp://".toList ++ (user ++ '@' :: (host ++ ':' :: (port ++ ['/'])))) ++ path := by
      simp [display_name_of, List.append_assoc]
    rw [hname, h]
    congr 1
    apply List.take_of_length_le
    rw [hnpos]
    omega
  have hne : display_name_of user host port path ≠ [] := by
    simp [display_name_of]
  have htake : (display_name_of user host port path).take 7 = "sftp://".toList := by
    rw [display_name_of, ← hfront]
    exact List.take_left _ _
  have hAtne : 7 + user.length ≠ npos bits := by rw [hnpos]; omega
  have hColon_gt : ¬ 7 + (user.length + (host.length + 1)) ≤ 7 + user.length := by omega
  unfold parse_display_name
  rw [if_neg hne, if_neg (by simp [htake])]
  simp only [hAt, hColon, hSlash, hmod, if_neg hAtne, if_neg hColon_gt, hUser, hHost, hPort,
    hPath]
  have hempty : ¬ (user = [] ∨ host = [] ∨ port ++ '/' :: path = [] ∨ path = []) := by
    simp [huser, hhost, hpath]
  rw [if_neg hempty, wtoi_before_slash port path hport hdigits]

/-- A string without `NUL` that is shorter than its array is read back up to
the index at which the terminator is written: whole, when that index is at or
behind its end. -/
theorem stored_string_reads_back (s : List Char) (n k : Nat) (hnul : NUL ∉ s)
    (hlen : s.length < n) :
    copy_unaligned_string ((wstring_copy s n (List.replicate n NUL)).set k NUL)
      = s.take k := by
  have h1 : wstring_copy s n (List.replicate n NUL)
      = s ++ List.replicate (n - s.length) NUL := by
    simp [wstring_copy, List.take_of_length_le (le_of_lt hlen), le_of_lt hlen]
  have hpos : ∀ t : List Char, (∀ c ∈ t, c ∈ s) → ∀ rest : List Char,
      List.takeWhile (fun c => c != NUL) (t ++ NUL :: rest) = t := by
    intro t ht rest
    rw [List.takeWhile_append_of_pos]
    · simp [List.takeWhile]
    · intro c hc
      have : c ≠ NUL := fun h => hnul (h ▸ ht c hc)
      simpa using this
  unfold copy_unaligned_string
  by_cases hk : s.length ≤ k
  · have h2 : (List.replicate (n - s.length) NUL).set (k - s.length) NUL
        = List.replicate (n - s.length) NUL := by
      apply List.ext_getElem
      · simp
      · intro i h3 h4
        simp [List.getElem_set]
    obtain ⟨m, hm⟩ : ∃ m, n - s.length = m + 1 := ⟨n - s.length - 1, by omega⟩
    rw [h1, List.set_append_right _ _ hk, h2, hm, List.replicate_succ,
      List.take_of_length_le hk]
    exact hpos s (fun _ h => h) _
  · have hk1 : k < s.length := by omega
    rw [h1, List.set_append_left _ _ hk1, List.set_eq_take_append_cons_drop, if_pos hk1,
      List.append_assoc, List.cons_append]
    exact hpos (s.take k) (fun c hc => List.mem_of_mem_take hc) _

/-- When the indices of the three terminators are inside their arrays,
`create_remote_itemid` makes this item. -/
theorem create_remote_itemid_defined (limits : remotelimits) (filename : List Char)
    (is_folder is_link : Bool) (owner group : List Char)
    (owner_id group_id permissions size : Nat)
    (hhostname : 1 ≤ limits.MAX_HOSTNAME_LENZ)
    (hfilename : limits.MAX_HOSTNAME_LENZ ≤ limits.MAX_FILENAME_LENZ)
    (husername : 1 ≤ limits.MAX_USERNAME_LENZ) :
    create_remote_itemid limits filename is_folder is_link owner group
        owner_id group_id permissions size
      = some
        { cb := sizeof_remote_item_id limits % 2 ^ 16
          dwFingerprint := FINGERPRINT
          wszFilename :=
            (wstring_copy filename limits.MAX_FILENAME_LENZ
              (List.replicate limits.MAX_FILENAME_LENZ NUL)).set
                (limits.MAX_HOSTNAME_LENZ - 1) NUL
          wszOwner :=
            (wstring_copy owner limits.MAX_USERNAME_LENZ
              (List.replicate limits.MAX_USERNAME_LENZ NUL)).set
                (limits.MAX_USERNAME_LENZ - 1) NUL
          wszGroup :=
            (wstring_copy group limits.MAX_USERNAME_LENZ
              (List.replicate limits.MAX_USERNAME_LENZ NUL)).set
                (limits.MAX_USERNAME_LENZ - 1) NUL
          fIsFolder := is_folder
          fIsLink := is_link
          uUid := owner_id % 2 ^ 32
          uGid := group_id % 2 ^ 32
          dwPermissions := permissions % 2 ^ 32
          uSize := size % 2 ^ 64 } := by
  unfold create_remote_itemid
  rw [if_pos ⟨hhostname, hfilename, husername⟩]

/-! ## The claims -/

/-- C1. For distinct non-empty paths: when the first rename (overwrite prevented)
fails with a `system_error` on an obstructed target (its code is `file_exists`, or
`exists(to)` then returns true) and the consumer declines, `provider::rename`
throws `com_error(E_ABORT)`, no rename or removal is issued after the failed first
attempt, and the remote side is unchanged whenever the failed attempt, the
existence check and the consumer leave it unchanged. -/
theorem rename_declined_aborts_untouched (session : authenticated_session σ)
    (consumer : ISftpConsumer σ) (from_ to_ : String) (s : σ) (e : system_error)
    (hfrom : from_ ≠ "") (hto : to_ ≠ "") (hne : from_ ≠ to_)
    (hfirst : (session.rename from_ to_ overwrite_behaviour.prevent_overwrite s).1
      = Outcome.threw (exception.system_error e))
    (hobstructed : e.code = errc.file_exists ∨
      (session.exists_ to_
        (session.rename from_ to_ overwrite_behaviour.prevent_overwrite s).2).1
        = Outcome.returned true)
    (hdeclines : ∀ s', FAILED (consumer.OnConfirmOverwrite from_ to_ s').1 = true) :
    (provider.rename session consumer from_ to_ ⟨s, []⟩).1
        = Outcome.threw (exception.com_error E_ABORT none)
      ∧ (∀ ev ∈ (provider.rename session consumer from_ to_ ⟨s, []⟩).2.trace.tail,
          mutating ev = false)
      ∧ ((session.rename from_ to_ overwrite_behaviour.prevent_overwrite s).2 = s →
          (∀ p s', (session.exists_ p s').2 = s') →
          (∀ s', (consumer.OnConfirmOverwrite from_ to_ s').2 = s') →
          (provider.rename session consumer from_ to_ ⟨s, []⟩).2.remote = s) := by
  rcases h1 : session.rename from_ to_ overwrite_behaviour.prevent_overwrite s with ⟨r1, s1⟩
  rw [h1] at hfirst hobstructed
  simp only at hfirst hobstructed
  subst hfirst
  by_cases hc : e.code = errc.file_exists
  · rcases h2 : consumer.OnConfirmOverwrite from_ to_ s1 with ⟨hr, s2⟩
    have hd := hdeclines s1
    rw [h2] at hd
    simp only at hd
    simp [provider.rename, rename_retry_with_overwrite, ssh_rename, OnConfirmOverwrite,
      hfrom, hto, hne, h1, hc, h2, hd, mutating]
    intro h _ hC
    have := hC s1
    rw [h2] at this
    simp_all
  · have hex : (session.exists_ to_ s1).1 = Outcome.returned true := by
      rcases hobstructed with h | h
      · exact absurd h hc
      · exact h
    rcases h3 : session.exists_ to_ s1 with ⟨r3, s3⟩
    rw [h3] at hex
    simp only at hex
    subst hex
    rcases h2 : consumer.OnConfirmOverwrite from_ to_ s3 with ⟨hr, s2⟩
    have hd := hdeclines s3
    rw [h2] at hd
    simp only at hd
    simp [provider.rename, rename_retry_with_overwrite, ssh_rename, ssh_exists,
      OnConfirmOverwrite, hfrom, hto, hne, h1, hc, h2, h3, hd, mutating]
    intro h hE hC
    have a := hC s3
    have b := hE to_ s1
    rw [h2] at a
    rw [h3] at b
    simp_all

/-- Witness of C1: a declined overwrite of "b" by "a" on a server reporting a
generic failure. -/
theorem rename_declined_aborts_untouched_witness :
    (provider.rename (sftp_v3_server generic_failure) (answering_consumer remote_fs E_ABORT)
        "a" "b" ⟨fs_of [("a", "A"), ("b", "B")], []⟩).1
        = Outcome.threw (exception.com_error E_ABORT none)
      ∧ (provider.rename (sftp_v3_server generic_failure) (answering_consumer remote_fs E_ABORT)
        "a" "b" ⟨fs_of [("a", "A"), ("b", "B")], []⟩).2.remote
        = fs_of [("a", "A"), ("b", "B")] :=
  have h := rename_declined_aborts_untouched (sftp_v3_server generic_failure)
    (answering_consumer remote_fs E_ABORT) "a" "b" (fs_of [("a", "A"), ("b", "B")])
    generic_failure (by decide) (by decide) (by decide) (by decide)
    (Or.inr (by decide)) (fun _ => rfl)
  ⟨h.1, h.2.2 rfl (fun _ _ => rfl) (fun _ => rfl)⟩


/-- C2 (counterexample). With the suffix of the specification, ".rename_temp",
the claim fails in both directions: when only "b.swish_rename_temp" is occupied
the rename of "a" to "b" fails with `file_exists` although nothing is at
"b.rename_temp"; and an entry at "b.rename_temp" is still there after a
successful overwrite. -/
theorem overwrite_rename_temp_suffix_counterexample :
    (fs_of [("a", "A"), ("b", "B"), ("b.swish_rename_temp", "T")] "a" = some "A"
      ∧ fs_of [("a", "A"), ("b", "B"), ("b.swish_rename_temp", "T")] "b" = some "B"
      ∧ fs_of [("a", "A"), ("b", "B"), ("b.swish_rename_temp", "T")] ("b" ++ ".rename_temp") = none
      ∧ FAILED S_OK = false
      ∧ (provider.rename (sftp_v3_server already_exists) (answering_consumer remote_fs S_OK)
          "a" "b" ⟨fs_of [("a", "A"), ("b", "B"), ("b.swish_rename_temp", "T")], []⟩).1
          = Outcome.threw (exception.system_error already_exists))
    ∧ (fs_of [("a", "A"), ("b", "B"), ("b.rename_temp", "T")] "a" = some "A"
      ∧ fs_of [("a", "A"), ("b", "B"), ("b.rename_temp", "T")] "b" = some "B"
      ∧ fs_of [("a", "A"), ("b", "B"), ("b.rename_temp", "T")] ("b" ++ ".swish_rename_temp") = none
      ∧ (provider.rename (sftp_v3_server already_exists) (answering_consumer remote_fs S_OK)
          "a" "b" ⟨fs_of [("a", "A"), ("b", "B"), ("b.rename_temp", "T")], []⟩).1
          = Outcome.returned VARIANT_TRUE
      ∧ (provider.rename (sftp_v3_server already_exists) (answering_consumer remote_fs S_OK)
          "a" "b" ⟨fs_of [("a", "A"), ("b", "B"), ("b.rename_temp", "T")], []⟩).2.remote
          ("b" ++ ".rename_temp") = some "T") := by
  decide

/-- C2 (amended). On a server without atomic overwrite and with ordinary
filesystem semantics, for distinct non-empty paths with `from_` and `to_` present
and nothing at `to_ ++ ".swish_rename_temp"`, and a consumer that grants the
overwrite without touching the remote side: `provider::rename` returns
`VARIANT_TRUE`, `to_` holds the former content of `from_`, and `from_` and the
temporary path are empty. -/
theorem overwrite_non_atomic_end_state (fs : remote_fs)
    (from_ to_ content obstruction : String)
    (obstructed : system_error) (consumer : ISftpConsumer remote_fs)
    (hfrom : from_ ≠ "") (hto : to_ ≠ "") (hne : from_ ≠ to_)
    (hsource : fs from_ = some content) (htarget : fs to_ = some obstruction)
    (htemporary : fs (to_ ++ ".swish_rename_temp") = none)
    (hgrants : ∀ fs', (consumer.OnConfirmOverwrite from_ to_ fs').2 = fs' ∧
      FAILED (consumer.OnConfirmOverwrite from_ to_ fs').1 = false) :
    (provider.rename (sftp_v3_server obstructed) consumer from_ to_ ⟨fs, []⟩).1
        = Outcome.returned VARIANT_TRUE
      ∧ (provider.rename (sftp_v3_server obstructed) consumer from_ to_ ⟨fs, []⟩).2.remote to_
        = some content
      ∧ (provider.rename (sftp_v3_server obstructed) consumer from_ to_ ⟨fs, []⟩).2.remote from_
        = none
      ∧ (provider.rename (sftp_v3_server obstructed) consumer from_ to_ ⟨fs, []⟩).2.remote
          (to_ ++ ".swish_rename_temp") = none := by
  have htf : to_ ++ ".swish_rename_temp" ≠ from_ := by
    intro h; rw [h] at htemporary; simp [hsource] at htemporary
  have htt : to_ ++ ".swish_rename_temp" ≠ to_ := by
    intro h; rw [h] at htemporary; simp [htarget] at htemporary
  rcases hc : consumer.OnConfirmOverwrite from_ to_ fs with ⟨hr, fs1⟩
  have hg := hgrants fs
  rw [hc] at hg
  simp only at hg
  obtain ⟨hg1, hg2⟩ := hg
  subst hg1
  by_cases hcode : obstructed.code = errc.file_exists
  · simp [provider.rename, rename_retry_with_overwrite, rename_non_atomic_overwrite, ssh_rename,
      ssh_exists, ssh_remove_all, OnConfirmOverwrite, sftp_v3_server, hfrom, hto, hne, hsource,
      htarget, htemporary, hc, hg2, hcode, htf, htt, Ne.symm hne, Ne.symm htf, Ne.symm htt]
  · simp [provider.rename, rename_retry_with_overwrite, rename_non_atomic_overwrite, ssh_rename,
      ssh_exists, ssh_remove_all, OnConfirmOverwrite, sftp_v3_server, hfrom, hto, hne, hsource,
      htarget, htemporary, hc, hg2, hcode, htf, htt, Ne.symm hne, Ne.symm htf, Ne.symm htt]

/-- Witness of C2 (amended): "a" overwrites "b" on a server that reports the
obstruction with `file_exists`. -/
theorem overwrite_non_atomic_end_state_witness :
    (provider.rename (sftp_v3_server already_exists) (answering_consumer remote_fs S_OK)
        "a" "b" ⟨fs_of [("a", "A"), ("b", "B")], []⟩).1 = Outcome.returned VARIANT_TRUE
      ∧ (provider.rename (sftp_v3_server already_exists) (answering_consumer remote_fs S_OK)
        "a" "b" ⟨fs_of [("a", "A"), ("b", "B")], []⟩).2.remote "b" = some "A"
      ∧ (provider.rename (sftp_v3_server already_exists) (answering_consumer remote_fs S_OK)
        "a" "b" ⟨fs_of [("a", "A"), ("b", "B")], []⟩).2.remote "a" = none
      ∧ (provider.rename (sftp_v3_server already_exists) (answering_consumer remote_fs S_OK)
        "a" "b" ⟨fs_of [("a", "A"), ("b", "B")], []⟩).2.remote ("b" ++ ".swish_rename_temp")
        = none :=
  have h := overwrite_non_atomic_end_state (fs_of [("a", "A"), ("b", "B")]) "a" "b" "A" "B"
    already_exists (answering_consumer remote_fs S_OK) (by decide) (by decide) (by decide)
    (by decide) (by decide) (by decide) (fun _ => ⟨rfl, rfl⟩)
  ⟨h.1, h.2.1, h.2.2.1, h.2.2.2⟩

/-- C3 (the code at the failing input). Renaming the missing "a" onto the
existing "b": after "b" was moved to "b.swish_rename_temp" and the rename of "a"
to "b" failed, the next operation is again the rename of "a" to "b", not a rename
of the temporary back; the obstruction stays at the temporary path and "b" is
gone. -/
theorem compensation_repeats_failed_rename :
    (provider.rename (sftp_v3_server generic_failure) (answering_consumer remote_fs S_OK)
        "a" "b" ⟨fs_of [("b", "B")], []⟩).2.trace
      = [Event.rename "a" "b" overwrite_behaviour.prevent_overwrite
          (Outcome.threw (exception.system_error
            ⟨errc.no_such_file_or_directory, "no such file"⟩)),
         Event.exists_ "b" (Outcome.returned true),
         Event.OnConfirmOverwrite "a" "b" S_OK,
         Event.rename "b" "b.swish_rename_temp" overwrite_behaviour.prevent_overwrite
          (Outcome.returned ()),
         Event.rename "a" "b" overwrite_behaviour.prevent_overwrite
          (Outcome.threw (exception.system_error
            ⟨errc.no_such_file_or_directory, "no such file"⟩)),
         Event.rename "a" "b" overwrite_behaviour.prevent_overwrite
          (Outcome.threw (exception.system_error
            ⟨errc.no_such_file_or_directory, "no such file"⟩))]
    ∧ (provider.rename (sftp_v3_server generic_failure) (answering_consumer remote_fs S_OK)
        "a" "b" ⟨fs_of [("b", "B")], []⟩).2.remote "b" = none
    ∧ (provider.rename (sftp_v3_server generic_failure) (answering_consumer remote_fs S_OK)
        "a" "b" ⟨fs_of [("b", "B")], []⟩).2.remote "b.swish_rename_temp" = some "B" := by
  decide

/-- C4. Whenever, in a run of `provider::rename`, the move of `to_` to the
temporary path succeeded and the rename of `from_` to `to_` that follows it threw
`e`, `provider::rename` throws exactly `e`, whatever the channel answers to the
operation issued in the handler. -/
theorem fallback_rethrows_primary_error (session : authenticated_session σ)
    (consumer : ISftpConsumer σ) (from_ to_ : String) (s : σ) (e : exception)
    (h : consecutive
      (Event.rename to_ (to_ ++ ".swish_rename_temp") overwrite_behaviour.prevent_overwrite
        (Outcome.returned ()))
      (Event.rename from_ to_ overwrite_behaviour.prevent_overwrite (Outcome.threw e))
      (provider.rename session consumer from_ to_ ⟨s, []⟩).2.trace) :
    (provider.rename session consumer from_ to_ ⟨s, []⟩).1 = Outcome.threw e := by
  have hrun := rename_run_fresh session consumer from_ to_ s
  revert h hrun
  generalize (provider.rename session consumer from_ to_ ⟨s, []⟩).1 = o
  generalize (provider.rename session consumer from_ to_ ⟨s, []⟩).2.trace = t
  intro h hrun
  cases hrun with
  | unsupported_failed e1 e2 hr x t hc hg h2 ht => cases ht <;> simp_all [consecutive]
  | unsupported_done e1 e2 hr t hc hg h2 ht => cases ht; simp_all [consecutive]
  | stat_failed e1 hr x t hc hg ht => cases ht <;> simp_all [consecutive]
  | stat_done e1 hr t hc hg ht => cases ht; simp_all [consecutive]
  | _ => simp_all [consecutive]

/-- Witness of C4: the source "x" is missing, so the second rename of the
fallback fails with `no_such_file_or_directory`, which is what the caller
gets. -/
theorem fallback_rethrows_primary_error_witness :
    (provider.rename (sftp_v3_server generic_failure) (answering_consumer remote_fs S_OK)
        "x" "y" ⟨fs_of [("y", "Y")], []⟩).1
      = Outcome.threw (exception.system_error
          ⟨errc.no_such_file_or_directory, "no such file"⟩) :=
  fallback_rethrows_primary_error (sftp_v3_server generic_failure)
    (answering_consumer remote_fs S_OK) "x" "y" (fs_of [("y", "Y")])
    (exception.system_error ⟨errc.no_such_file_or_directory, "no such file"⟩) (by decide)

/-- C5. Whenever, in a run of `provider::rename`, the move of `to_` to the
temporary path and the rename of `from_` to `to_` that follows it both succeeded,
`provider::rename` returns `VARIANT_TRUE`, whatever the outcome of the removal of
the temporary path. -/
theorem fallback_ignores_cleanup_failure (session : authenticated_session σ)
    (consumer : ISftpConsumer σ) (from_ to_ : String) (s : σ)
    (h : consecutive
      (Event.rename to_ (to_ ++ ".swish_rename_temp") overwrite_behaviour.prevent_overwrite
        (Outcome.returned ()))
      (Event.rename from_ to_ overwrite_behaviour.prevent_overwrite (Outcome.returned ()))
      (provider.rename session consumer from_ to_ ⟨s, []⟩).2.trace) :
    (provider.rename session consumer from_ to_ ⟨s, []⟩).1 = Outcome.returned VARIANT_TRUE := by
  have hrun := rename_run_fresh session consumer from_ to_ s
  revert h hrun
  generalize (provider.rename session consumer from_ to_ ⟨s, []⟩).1 = o
  generalize (provider.rename session consumer from_ to_ ⟨s, []⟩).2.trace = t
  intro h hrun
  cases hrun with
  | unsupported_failed e1 e2 hr x t hc hg h2 ht => cases ht <;> simp_all [consecutive]
  | unsupported_done e1 e2 hr t hc hg h2 ht => cases ht; simp_all [consecutive]
  | stat_failed e1 hr x t hc hg ht => cases ht <;> simp_all [consecutive]
  | stat_done e1 hr t hc hg ht => cases ht; simp_all [consecutive]
  | _ => simp_all [consecutive]

/-- Witness of C5: the removal of the temporary fails and the rename still
reports an overwrite. -/
theorem fallback_ignores_cleanup_failure_witness :
    Event.remove_all "b.swish_rename_temp"
        (Outcome.threw (exception.system_error ⟨errc.permission_denied, "denied"⟩))
      ∈ (provider.rename (undeletable_server generic_failure) (answering_consumer remote_fs S_OK)
        "a" "b" ⟨fs_of [("a", "A"), ("b", "B")], []⟩).2.trace
    ∧ (provider.rename (undeletable_server generic_failure) (answering_consumer remote_fs S_OK)
        "a" "b" ⟨fs_of [("a", "A"), ("b", "B")], []⟩).1 = Outcome.returned VARIANT_TRUE :=
  ⟨by decide, fallback_ignores_cleanup_failure (undeletable_server generic_failure)
    (answering_consumer remote_fs S_OK) "a" "b" (fs_of [("a", "A"), ("b", "B")]) (by decide)⟩

/-- C6. For distinct non-empty paths: when the first rename (overwrite prevented)
throws a `system_error` `e` whose code is not `file_exists` and `exists(to)` then
returns false, `provider::rename` throws `e` itself, and the run consists of
exactly these two operations: the consumer is not asked and no further rename
or removal is issued. -/
theorem unobstructed_failure_rethrown (session : authenticated_session σ)
    (consumer : ISftpConsumer σ) (from_ to_ : String) (s : σ) (e : system_error)
    (hfrom : from_ ≠ "") (hto : to_ ≠ "") (hne : from_ ≠ to_)
    (hfirst : (session.rename from_ to_ overwrite_behaviour.prevent_overwrite s).1
      = Outcome.threw (exception.system_error e))
    (hcode : e.code ≠ errc.file_exists)
    (hfree : (session.exists_ to_
        (session.rename from_ to_ overwrite_behaviour.prevent_overwrite s).2).1
        = Outcome.returned false) :
    (provider.rename session consumer from_ to_ ⟨s, []⟩).1
        = Outcome.threw (exception.system_error e)
      ∧ (provider.rename session consumer from_ to_ ⟨s, []⟩).2.trace
        = [Event.rename from_ to_ overwrite_behaviour.prevent_overwrite
            (Outcome.threw (exception.system_error e)),
           Event.exists_ to_ (Outcome.returned false)] := by
  rcases h1 : session.rename from_ to_ overwrite_behaviour.prevent_overwrite s with ⟨r1, s1⟩
  rw [h1] at hfirst hfree
  simp only at hfirst hfree
  subst hfirst
  rcases h2 : session.exists_ to_ s1 with ⟨r2, s2⟩
  rw [h2] at hfree
  simp only at hfree
  subst hfree
  simp [provider.rename, rename_retry_with_overwrite, ssh_rename, ssh_exists, hfrom, hto, hne,
    h1, h2, hcode]

/-- Witness of C6: neither "a" nor "b" exists; the `no_such_file_or_directory`
of the first attempt is what the caller gets. -/
theorem unobstructed_failure_rethrown_witness :
    (provider.rename (sftp_v3_server generic_failure) (answering_consumer remote_fs S_OK)
        "a" "b" ⟨fs_of [], []⟩).1
      = Outcome.threw (exception.system_error
          ⟨errc.no_such_file_or_directory, "no such file"⟩) :=
  (unobstructed_failure_rethrown (sftp_v3_server generic_failure)
    (answering_consumer remote_fs S_OK) "a" "b" (fs_of [])
    ⟨errc.no_such_file_or_directory, "no such file"⟩ (by decide) (by decide) (by decide)
    (by decide) (by decide) (by decide)).1

/-- C7. In every run of `provider::rename`: the consumer is asked at most once;
it is asked only right after the first attempt threw a `system_error` with code
`file_exists`, or right after the first attempt threw a `system_error` and
`exists(to)` returned true; every destructive operation (atomic overwrite, move of
`to` to the temporary path, removal) is preceded by a granted confirmation; and
`VARIANT_TRUE` is returned only when a confirmation was granted. -/
theorem confirmation_gates_overwrite (session : authenticated_session σ)
    (consumer : ISftpConsumer σ) (from_ to_ : String) (s : σ) :
    ((provider.rename session consumer from_ to_ ⟨s, []⟩).2.trace.filter
        is_confirmation).length ≤ 1
      ∧ (∀ old_file new_file hr, Event.OnConfirmOverwrite old_file new_file hr
          ∈ (provider.rename session consumer from_ to_ ⟨s, []⟩).2.trace →
          ∃ e : system_error,
            (e.code = errc.file_exists ∧
              (provider.rename session consumer from_ to_ ⟨s, []⟩).2.trace.take 2
                = [Event.rename from_ to_ overwrite_behaviour.prevent_overwrite
                    (Outcome.threw (exception.system_error e)),
                   Event.OnConfirmOverwrite from_ to_ hr])
            ∨ (provider.rename session consumer from_ to_ ⟨s, []⟩).2.trace.take 3
                = [Event.rename from_ to_ overwrite_behaviour.prevent_overwrite
                    (Outcome.threw (exception.system_error e)),
                   Event.exists_ to_ (Outcome.returned true),
                   Event.OnConfirmOverwrite from_ to_ hr])
      ∧ (∀ pre ev post,
          (provider.rename session consumer from_ to_ ⟨s, []⟩).2.trace = pre ++ ev :: post →
          destructive from_ to_ ev = true →
          ∃ hr, Event.OnConfirmOverwrite from_ to_ hr ∈ pre ∧ FAILED hr = false)
      ∧ ((provider.rename session consumer from_ to_ ⟨s, []⟩).1
          = Outcome.returned VARIANT_TRUE →
          ∃ hr, Event.OnConfirmOverwrite from_ to_ hr
            ∈ (provider.rename session consumer from_ to_ ⟨s, []⟩).2.trace ∧
            FAILED hr = false) := by
  have hrun := rename_run_fresh session consumer from_ to_ s
  revert hrun
  generalize (provider.rename session consumer from_ to_ ⟨s, []⟩).1 = o
  generalize (provider.rename session consumer from_ to_ ⟨s, []⟩).2.trace = t
  intro hrun
  have hguard : guarded from_ to_ false t = true := by
    cases hrun with
    | unsupported_failed e1 e2 hr x t hc hg h2 ht =>
      cases ht <;> simp [guarded, destructive, grants, hg]
    | unsupported_done e1 e2 hr t hc hg h2 ht =>
      cases ht; simp [guarded, destructive, grants, hg]
    | stat_failed e1 hr x t hc hg ht => cases ht <;> simp [guarded, destructive, grants, hg]
    | stat_done e1 hr t hc hg ht => cases ht; simp [guarded, destructive, grants, hg]
    | _ => simp_all [guarded, destructive, grants]
  refine ⟨?_, ?_, ?_, ?_⟩
  · cases hrun with
    | unsupported_failed e1 e2 hr x t hc hg h2 ht => cases ht <;> simp [is_confirmation]
    | unsupported_done e1 e2 hr t hc hg h2 ht => cases ht; simp [is_confirmation]
    | stat_failed e1 hr x t hc hg ht => cases ht <;> simp [is_confirmation]
    | stat_done e1 hr t hc hg ht => cases ht; simp [is_confirmation]
    | _ => simp [is_confirmation]
  · intro old_file new_file hr0 hmem
    cases hrun with
    | unsupported_failed e1 e2 hr x t hc hg h2 ht =>
      refine ⟨e1, Or.inl ⟨hc, ?_⟩⟩
      cases ht <;> simp_all
    | unsupported_done e1 e2 hr t hc hg h2 ht =>
      refine ⟨e1, Or.inl ⟨hc, ?_⟩⟩
      cases ht; simp_all
    | stat_failed e1 hr x t hc hg ht =>
      refine ⟨e1, Or.inr ?_⟩
      cases ht <;> simp_all
    | stat_done e1 hr t hc hg ht =>
      refine ⟨e1, Or.inr ?_⟩
      cases ht; simp_all
    | exists_declined e1 hr hc hd => exact ⟨e1, Or.inl ⟨hc, by simp_all⟩⟩
    | atomic_done e1 hr hc hg => exact ⟨e1, Or.inl ⟨hc, by simp_all⟩⟩
    | atomic_failed e1 hr x hc hg hx => exact ⟨e1, Or.inl ⟨hc, by simp_all⟩⟩
    | stat_declined e1 hr hc hd => exact ⟨e1, Or.inr (by simp_all)⟩
    | _ => simp_all
  · intro pre ev post hsplit hd
    rw [hsplit] at hguard
    rcases guarded_sound from_ to_ pre false post ev hguard hd with h | h
    · cases h
    · exact h
  · intro hres
    cases hrun with
    | atomic_done e1 hr hc hg => exact ⟨hr, by simp, hg⟩
    | unsupported_done e1 e2 hr t hc hg h2 ht => exact ⟨hr, by simp, hg⟩
    | stat_done e1 hr t hc hg ht => exact ⟨hr, by simp, hg⟩
    | _ => simp_all [VARIANT_TRUE, VARIANT_FALSE]

/-- C8 (counterexample). A server reports the occupied "b" with a generic failure,
`exists("b")` is true and the overwrite is granted: the operation after the
confirmation is the move of "b" to "b.swish_rename_temp", and no atomic overwrite
is attempted in the whole run. -/
theorem generic_failure_skips_atomic_overwrite :
    (provider.rename (sftp_v3_server generic_failure) (answering_consumer remote_fs S_OK)
        "a" "b" ⟨fs_of [("a", "A"), ("b", "B")], []⟩).2.trace.take 4
      = [Event.rename "a" "b" overwrite_behaviour.prevent_overwrite
          (Outcome.threw (exception.system_error generic_failure)),
         Event.exists_ "b" (Outcome.returned true),
         Event.OnConfirmOverwrite "a" "b" S_OK,
         Event.rename "b" "b.swish_rename_temp" overwrite_behaviour.prevent_overwrite
          (Outcome.returned ())]
    ∧ FAILED S_OK = false
    ∧ (provider.rename (sftp_v3_server generic_failure) (answering_consumer remote_fs S_OK)
        "a" "b" ⟨fs_of [("a", "A"), ("b", "B")], []⟩).2.trace.all
        (fun ev => !is_atomic_overwrite ev) = true := by
  decide

/-- C8 (amended). In a run of `provider::rename` whose first attempt threw the
`system_error` `e` and in which the consumer granted the overwrite: if the code
of `e` is `file_exists`, the operation after the confirmation is the atomic
overwrite of `to_` by `from_`, and a move of `to_` to the temporary path (the
start of the non-atomic fallback) comes only right after that attempt threw
`operation_not_supported`; if the code of `e` is any other, the operation after
the confirmation is the move of `to_` to the temporary path and no atomic
overwrite is attempted. -/
theorem atomic_overwrite_only_after_file_exists (session : authenticated_session σ)
    (consumer : ISftpConsumer σ) (from_ to_ : String) (s : σ) (e : system_error) (hr : Int)
    (hfirst : (provider.rename session consumer from_ to_ ⟨s, []⟩).2.trace.head?
      = some (Event.rename from_ to_ overwrite_behaviour.prevent_overwrite
          (Outcome.threw (exception.system_error e))))
    (hasked : Event.OnConfirmOverwrite from_ to_ hr
      ∈ (provider.rename session consumer from_ to_ ⟨s, []⟩).2.trace)
    (hgranted : FAILED hr = false) :
    (e.code = errc.file_exists →
        (∃ r, consecutive (Event.OnConfirmOverwrite from_ to_ hr)
          (Event.rename from_ to_ overwrite_behaviour.atomic_overwrite r)
          (provider.rename session consumer from_ to_ ⟨s, []⟩).2.trace)
        ∧ ∀ r, Event.rename to_ (to_ ++ ".swish_rename_temp")
            overwrite_behaviour.prevent_overwrite r
            ∈ (provider.rename session consumer from_ to_ ⟨s, []⟩).2.trace →
          ∃ e2 : system_error, e2.code = errc.operation_not_supported ∧
            consecutive
              (Event.rename from_ to_ overwrite_behaviour.atomic_overwrite
                (Outcome.threw (exception.system_error e2)))
              (Event.rename to_ (to_ ++ ".swish_rename_temp")
                overwrite_behaviour.prevent_overwrite r)
              (provider.rename session consumer from_ to_ ⟨s, []⟩).2.trace)
      ∧ (e.code ≠ errc.file_exists →
        (∃ r, consecutive (Event.OnConfirmOverwrite from_ to_ hr)
          (Event.rename to_ (to_ ++ ".swish_rename_temp")
            overwrite_behaviour.prevent_overwrite r)
          (provider.rename session consumer from_ to_ ⟨s, []⟩).2.trace)
        ∧ ∀ ev ∈ (provider.rename session consumer from_ to_ ⟨s, []⟩).2.trace,
            is_atomic_overwrite ev = false) := by
  have hrun := rename_run_fresh session consumer from_ to_ s
  revert hrun hfirst hasked
  generalize (provider.rename session consumer from_ to_ ⟨s, []⟩).1 = o
  generalize (provider.rename session consumer from_ to_ ⟨s, []⟩).2.trace = t
  intro hfirst hasked hrun
  cases hrun with
  | unsupported_failed e1 e2 hr x t hc hg h2 ht =>
    cases ht <;> simp_all [consecutive, is_atomic_overwrite, temporary_ne_target]
  | unsupported_done e1 e2 hr t hc hg h2 ht =>
    cases ht; simp_all [consecutive, is_atomic_overwrite, temporary_ne_target]
  | stat_failed e1 hr x t hc hg ht => cases ht <;> simp_all [consecutive, is_atomic_overwrite, temporary_ne_target]
  | stat_done e1 hr t hc hg ht => cases ht; simp_all [consecutive, is_atomic_overwrite, temporary_ne_target]
  | _ => simp_all [consecutive, is_atomic_overwrite, temporary_ne_target]

/-- Witness of C8 (amended): the server reports the occupied "b" with
`file_exists`; the operation after the granted confirmation is the atomic
overwrite. -/
theorem atomic_overwrite_only_after_file_exists_witness :
    ∃ r, consecutive (Event.OnConfirmOverwrite "a" "b" S_OK)
      (Event.rename "a" "b" overwrite_behaviour.atomic_overwrite r)
      (provider.rename (sftp_v3_server already_exists) (answering_consumer remote_fs S_OK)
        "a" "b" ⟨fs_of [("a", "A"), ("b", "B")], []⟩).2.trace :=
  ((atomic_overwrite_only_after_file_exists (sftp_v3_server already_exists)
    (answering_consumer remote_fs S_OK) "a" "b" (fs_of [("a", "A"), ("b", "B")])
    already_exists S_OK (by decide) (by decide) (by decide)).1 (by decide)).1

/-- C9 (counterexample). The server reports occupied targets with `file_exists`
and "new.swish_rename_temp" is occupied: the move of "new" to the temporary path
throws `file_exists`, and `provider::rename` throws that error to its caller. -/
theorem file_exists_escapes_from_fallback :
    (provider.rename (sftp_v3_server already_exists) (answering_consumer remote_fs S_OK)
        "old" "new"
        ⟨fs_of [("old", "1"), ("new", "2"), ("new.swish_rename_temp", "3")], []⟩).1
      = Outcome.threw (exception.system_error already_exists)
    ∧ already_exists.code = errc.file_exists := by
  decide

/-- C9 (amended). When `provider::rename` throws a `system_error` whose code is
`file_exists`, that very error was thrown by an operation issued after the first
attempt (the existence check, the atomic overwrite or a rename of the fallback):
the error of the first attempt itself is never what a `file_exists` failure of
`provider::rename` comes from. -/
theorem file_exists_only_from_later_operation (session : authenticated_session σ)
    (consumer : ISftpConsumer σ) (from_ to_ : String) (s : σ) (x : system_error)
    (hthrows : (provider.rename session consumer from_ to_ ⟨s, []⟩).1
      = Outcome.threw (exception.system_error x))
    (hcode : x.code = errc.file_exists) :
    ∃ ev ∈ (provider.rename session consumer from_ to_ ⟨s, []⟩).2.trace.tail,
      thrown ev = some (exception.system_error x) := by
  have hrun := rename_run_fresh session consumer from_ to_ s
  revert hrun hthrows
  generalize (provider.rename session consumer from_ to_ ⟨s, []⟩).1 = o
  generalize (provider.rename session consumer from_ to_ ⟨s, []⟩).2.trace = t
  intro hthrows hrun
  cases hrun with
  | unsupported_failed e1 e2 hr x1 t hc hg h2 ht => cases ht <;> simp_all [thrown]
  | unsupported_done e1 e2 hr t hc hg h2 ht => cases ht; simp_all [thrown]
  | stat_failed e1 hr x1 t hc hg ht => cases ht <;> simp_all [thrown]
  | stat_done e1 hr t hc hg ht => cases ht; simp_all [thrown]
  | _ => simp_all [thrown]

/-- Witness of C9 (amended): the `file_exists` that escapes is the one thrown by
the move of "new" to the occupied temporary path. -/
theorem file_exists_only_from_later_operation_witness :
    ∃ ev ∈ (provider.rename (sftp_v3_server already_exists)
        (answering_consumer remote_fs S_OK) "old" "new"
        ⟨fs_of [("old", "1"), ("new", "2"), ("new.swish_rename_temp", "3")], []⟩).2.trace.tail,
      thrown ev = some (exception.system_error already_exists) :=
  file_exists_only_from_later_operation (sftp_v3_server already_exists)
    (answering_consumer remote_fs S_OK) "old" "new"
    (fs_of [("old", "1"), ("new", "2"), ("new.swish_rename_temp", "3")]) already_exists
    (by decide) (by decide)

/-- C10 (counterexample). The first operation of the fallback for the target "b"
is the move of "b" to "b.swish_rename_temp", which is not "b" ++ ".rename_temp";
the path removed afterwards is "b.swish_rename_temp" as well. -/
theorem fallback_temporary_is_not_rename_temp :
    (rename_non_atomic_overwrite (sftp_v3_server generic_failure) "a" "b"
        ⟨fs_of [("a", "A"), ("b", "B")], []⟩).2.trace
      = [Event.rename "b" "b.swish_rename_temp" overwrite_behaviour.prevent_overwrite
          (Outcome.returned ()),
         Event.rename "a" "b" overwrite_behaviour.prevent_overwrite (Outcome.returned ()),
         Event.remove_all "b.swish_rename_temp" (Outcome.returned ())]
    ∧ "b.swish_rename_temp" ≠ "b" ++ ".rename_temp" := by
  decide

/-- C10 (amended). In every run of `rename_non_atomic_overwrite` the first
operation is the rename of `to_` to `to_ ++ ".swish_rename_temp"` with overwrite
prevented, and every removal issued is a removal of that same path. -/
theorem fallback_moves_obstruction_to_swish_rename_temp (session : authenticated_session σ)
    (from_ to_ : String) (s : σ) :
    (∃ r, (rename_non_atomic_overwrite session from_ to_ ⟨s, []⟩).2.trace.head?
        = some (Event.rename to_ (to_ ++ ".swish_rename_temp")
            overwrite_behaviour.prevent_overwrite r))
      ∧ ∀ p r, Event.remove_all p r
          ∈ (rename_non_atomic_overwrite session from_ to_ ⟨s, []⟩).2.trace →
          p = to_ ++ ".swish_rename_temp" := by
  obtain ⟨t, hrun, htrace⟩ := fallback_run_complete session from_ to_ ⟨s, []⟩
  rw [htrace]
  revert hrun
  generalize (rename_non_atomic_overwrite session from_ to_ ⟨s, []⟩).1 = o
  intro hrun
  cases hrun <;> simp

/-- C11. For every non-empty path `p`, `provider::rename(p, p)` returns
`VARIANT_FALSE` and leaves the world as it was: nothing is added to the trace
(no channel call, hence no acquisition of the channel, and no request to the
consumer) and the remote state is untouched, whatever the channel and the
consumer would do. -/
theorem rename_same_path_is_noop (session : authenticated_session σ)
    (consumer : ISftpConsumer σ) (p : String) (w : World σ) (hp : p ≠ "") :
    provider.rename session consumer p p w = (Outcome.returned VARIANT_FALSE, w) := by
  simp [provider.rename, hp]

/-- Witness of C11: renaming "a" to "a" on a filesystem holding "a". -/
theorem rename_same_path_is_noop_witness :
    (provider.rename (sftp_v3_server already_exists) (answering_consumer remote_fs S_OK)
        "a" "a" ⟨fs_of [("a", "A")], []⟩).1 = Outcome.returned VARIANT_FALSE
      ∧ (provider.rename (sftp_v3_server already_exists) (answering_consumer remote_fs S_OK)
        "a" "a" ⟨fs_of [("a", "A")], []⟩).2.trace = [] :=
  have h := rename_same_path_is_noop (sftp_v3_server already_exists)
    (answering_consumer remote_fs S_OK) "a" ⟨fs_of [("a", "A")], []⟩ (by decide)
  ⟨congrArg Prod.fst h, congrArg (fun r => r.2.trace) h⟩

/-- C12. For distinct non-empty paths: when the first rename (overwrite
prevented) returns, `provider::rename` returns `VARIANT_FALSE`, the trace of
the run is exactly that one rename (the consumer is not asked), and the remote
state is the one that rename left. -/
theorem rename_unobstructed_single_rename (session : authenticated_session σ)
    (consumer : ISftpConsumer σ) (from_ to_ : String) (s : σ)
    (hfrom : from_ ≠ "") (hto : to_ ≠ "") (hne : from_ ≠ to_)
    (hfirst : (session.rename from_ to_ overwrite_behaviour.prevent_overwrite s).1
      = Outcome.returned ()) :
    (provider.rename session consumer from_ to_ ⟨s, []⟩).1 = Outcome.returned VARIANT_FALSE
      ∧ (provider.rename session consumer from_ to_ ⟨s, []⟩).2.trace
        = [Event.rename from_ to_ overwrite_behaviour.prevent_overwrite (Outcome.returned ())]
      ∧ (provider.rename session consumer from_ to_ ⟨s, []⟩).2.remote
        = (session.rename from_ to_ overwrite_behaviour.prevent_overwrite s).2 := by
  rcases h1 : session.rename from_ to_ overwrite_behaviour.prevent_overwrite s with ⟨r1, s1⟩
  rw [h1] at hfirst
  simp only at hfirst
  subst hfirst
  simp [provider.rename, ssh_rename, hfrom, hto, hne, h1]

/-- Witness of C12: "b" does not exist, so "a" is renamed to "b" at the first
attempt. -/
theorem rename_unobstructed_single_rename_witness :
    (provider.rename (sftp_v3_server already_exists) (answering_consumer remote_fs S_OK)
        "a" "b" ⟨fs_of [("a", "A")], []⟩).1 = Outcome.returned VARIANT_FALSE
      ∧ (provider.rename (sftp_v3_server already_exists) (answering_consumer remote_fs S_OK)
        "a" "b" ⟨fs_of [("a", "A")], []⟩).2.trace
        = [Event.rename "a" "b" overwrite_behaviour.prevent_overwrite (Outcome.returned ())] :=
  have h := rename_unobstructed_single_rename (sftp_v3_server already_exists)
    (answering_consumer remote_fs S_OK) "a" "b" (fs_of [("a", "A")])
    (by decide) (by decide) (by decide) (by decide)
  ⟨h.1, h.2.1⟩

/-- C13. When `from_` is empty or `to_` is empty (both empty included),
`provider::rename` throws `com_error(E_INVALIDARG)` and leaves the world as it
was: nothing is added to the trace and the remote state is untouched. -/
theorem rename_empty_path_invalid (session : authenticated_session σ)
    (consumer : ISftpConsumer σ) (from_ to_ : String) (w : World σ)
    (hempty : from_ = "" ∨ to_ = "") :
    provider.rename session consumer from_ to_ w
      = (Outcome.threw (exception.com_error E_INVALIDARG none), w) := by
  rcases hempty with h | h
  · simp [provider.rename, h]
  · by_cases hf : from_ = ""
    · simp [provider.rename, hf]
    · simp [provider.rename, hf, h]

/-- Witness of C13: both paths empty, hence equal; the result is still the
invalid-argument failure, not the no-op. -/
theorem rename_empty_path_invalid_witness :
    provider.rename (sftp_v3_server already_exists) (answering_consumer remote_fs S_OK)
        "" "" ⟨fs_of [("a", "A")], []⟩
      = (Outcome.threw (exception.com_error E_INVALIDARG none),
          ⟨fs_of [("a", "A")], []⟩) :=
  rename_empty_path_invalid (sftp_v3_server already_exists)
    (answering_consumer remote_fs S_OK) "" "" ⟨fs_of [("a", "A")], []⟩ (Or.inl rfl)

/-- C18. `provider::remove_all` throws `com_error(E_INVALIDARG)` on the empty
path and leaves the world as it was (no channel call).  For a non-empty path it
issues exactly one `remove_all` of that path: its outcome, a thrown exception
included, is the outcome of `provider::remove_all`, and the remote state is the
one that call left. -/
theorem remove_all_checks_then_removes_once (session : authenticated_session σ)
    (target : String) (w : World σ) :
    (target = "" →
        provider.remove_all session target w
          = (Outcome.threw (exception.com_error E_INVALIDARG none), w))
      ∧ (target ≠ "" →
        (provider.remove_all session target w).1 = (session.remove_all target w.remote).1
        ∧ (provider.remove_all session target w).2.trace
          = w.trace ++ [Event.remove_all target (session.remove_all target w.remote).1]
        ∧ (provider.remove_all session target w).2.remote
          = (session.remove_all target w.remote).2) := by
  constructor
  · intro h
    simp [provider.remove_all, h]
  · intro h
    simp [provider.remove_all, h, ssh_remove_all]

/-- Witness of C18: on a server whose removal fails with `permission_denied`,
that failure is what `provider::remove_all` throws, after one removal. -/
theorem remove_all_checks_then_removes_once_witness :
    (provider.remove_all (undeletable_server generic_failure) "a"
        ⟨fs_of [("a", "A")], []⟩).1
        = Outcome.threw (exception.system_error ⟨errc.permission_denied, "denied"⟩)
      ∧ (provider.remove_all (undeletable_server generic_failure) "a"
        ⟨fs_of [("a", "A")], []⟩).2.trace
        = [Event.remove_all "a"
            (Outcome.threw (exception.system_error ⟨errc.permission_denied, "denied"⟩))] :=
  have h := (remove_all_checks_then_removes_once (undeletable_server generic_failure) "a"
    ⟨fs_of [("a", "A")], []⟩).2 (by decide)
  ⟨h.1, h.2.1⟩

/-- C14. For a non-empty directory, when the channel is acquired and the
iterator enumerates `entries`, `provider::listing` returns the items of a list
`kept` of entries such that: `kept` is a sublist of `entries` (the order is the
channel's, nothing is duplicated), no entry of `kept` has the filename "." or
"..", and `kept` has as many entries as `entries` has entries with another
filename (nothing else is dropped). -/
theorem listing_drops_exactly_pseudo_entries {α β ι : Type} (channel : sftp_channel σ α ι)
    (lib : sftp_functions α β) (directory : String) (entries : List α) (s s1 s2 : σ)
    (hdirectory : directory ≠ "")
    (hacquired : channel.get_sftp_filesystem s = (Outcome.returned (), s1))
    (henumerated : channel.directory_iterator directory s1 = (Outcome.returned entries, s2)) :
    ∃ kept : List α,
      (provider.listing channel lib directory ⟨s, []⟩).1
          = Outcome.returned (kept.map lib.create_from_libssh2_file)
        ∧ kept.Sublist entries
        ∧ (∀ file ∈ kept,
            lib.filename (lib.path file) ≠ "." ∧ lib.filename (lib.path file) ≠ "..")
        ∧ kept.length = entries.countP (fun file =>
            decide (lib.filename (lib.path file) ≠ "." ∧ lib.filename (lib.path file) ≠ "..")) := by
  refine ⟨entries.filter (not_special_file lib), ?_, List.filter_sublist entries, ?_, ?_⟩
  · simp [provider.listing, logged, hdirectory, hacquired, henumerated]
  · intro file hfile
    have h := (List.mem_filter.mp hfile).2
    simpa [not_special_file] using h
  · rw [List.countP_eq_length_filter]
    congr 2
    funext file
    by_cases h1 : lib.filename (lib.path file) = "." <;>
      by_cases h2 : lib.filename (lib.path file) = ".." <;>
      simp [not_special_file, h1, h2]

/-- Witness of C14: of the entries ".", "..", "a", ".b", "a" the listing of
"/home" keeps "a", ".b", "a", in this order. -/
theorem listing_drops_exactly_pseudo_entries_witness :
    (provider.listing (enumerating_channel [".", "..", "a", ".b", "a"]) bare_names "/home"
        ⟨(), []⟩).1 = Outcome.returned ["a", ".b", "a"]
    ∧ ∃ kept : List String,
      (provider.listing (enumerating_channel [".", "..", "a", ".b", "a"]) bare_names "/home"
          ⟨(), []⟩).1 = Outcome.returned (kept.map bare_names.create_from_libssh2_file)
        ∧ kept.Sublist [".", "..", "a", ".b", "a"]
        ∧ (∀ file ∈ kept,
            bare_names.filename (bare_names.path file) ≠ "." ∧
              bare_names.filename (bare_names.path file) ≠ "..")
        ∧ kept.length = [".", "..", "a", ".b", "a"].countP (fun file =>
            decide (bare_names.filename (bare_names.path file) ≠ "." ∧
              bare_names.filename (bare_names.path file) ≠ "..")) :=
  ⟨by decide, listing_drops_exactly_pseudo_entries
    (enumerating_channel [".", "..", "a", ".b", "a"]) bare_names "/home"
    [".", "..", "a", ".b", "a"] () () () (by decide) rfl rfl⟩

/-- C16. For the empty directory path `provider::listing` throws
`com_error(E_INVALIDARG)` and leaves the world as it was: no access is
recorded (the channel is not acquired, nothing is enumerated) and the remote
state is untouched, whatever the channel would do. -/
theorem listing_empty_directory_invalid {α β ι : Type} (channel : sftp_channel σ α ι)
    (lib : sftp_functions α β) (w : Logged σ) :
    provider.listing channel lib "" w
      = (Outcome.threw (exception.com_error E_INVALIDARG none), w) := by
  simp [provider.listing]

/-- C15. For an entry that is a link, `is_directory` issues one
`stat(directory / filename, follow_links = true)` and answers true exactly when
that `stat` returns an item whose type is directory; when the `stat` throws,
whatever the exception, the answer is false (`is_directory` itself never
throws).  For an entry that is not a link the answer is whether its own type is
directory, and the world is as it was: no `stat` is issued. -/
theorem is_directory_follows_links (slash : String → String → String)
    (file : sftp_filesystem_item) (directory : String) (provider : sftp_provider σ)
    (w : Logged σ) :
    (file.type = item_type.link →
        ((is_directory slash file directory provider w).1 = true ↔
          ∃ target, (provider.stat (slash directory file.filename) true w.remote).1
              = Outcome.returned target ∧ target.type = item_type.directory)
        ∧ (∀ e, (provider.stat (slash directory file.filename) true w.remote).1
              = Outcome.threw e → (is_directory slash file directory provider w).1 = false)
        ∧ (is_directory slash file directory provider w).2.accesses
            = w.accesses ++ [Access.stat (slash directory file.filename) true
                (provider.stat (slash directory file.filename) true w.remote).1.thrown])
      ∧ (file.type ≠ item_type.link →
        ((is_directory slash file directory provider w).1 = true ↔
          file.type = item_type.directory)
        ∧ (is_directory slash file directory provider w).2 = w) := by
  constructor
  · intro hlink
    rcases hstat : provider.stat (slash directory file.filename) true w.remote with ⟨r, s1⟩
    cases r with
    | returned target => simp [is_directory, is_link, hlink, logged, hstat, Outcome.thrown]
    | threw e => simp [is_directory, is_link, hlink, logged, hstat, Outcome.thrown]
  · intro hlink
    simp [is_directory, is_link, hlink]

/-- Witness of C15: in "/home" the link "docs" leads to a directory, the link
"broken" leads nowhere (its `stat` fails) and "notes" is a plain file. -/
theorem is_directory_follows_links_witness :
    (is_directory (fun d f => d ++ "/" ++ f) ⟨"docs", item_type.link⟩ "/home"
        (stat_provider [("/home/docs", item_type.directory)]) ⟨(), []⟩).1 = true
      ∧ (is_directory (fun d f => d ++ "/" ++ f) ⟨"broken", item_type.link⟩ "/home"
        (stat_provider [("/home/docs", item_type.directory)]) ⟨(), []⟩).1 = false
      ∧ (is_directory (fun d f => d ++ "/" ++ f) ⟨"notes", item_type.other 0⟩ "/home"
        (stat_provider [("/home/docs", item_type.directory)]) ⟨(), []⟩).2.accesses = [] :=
  ⟨((is_directory_follows_links (fun d f => d ++ "/" ++ f) ⟨"docs", item_type.link⟩ "/home"
      (stat_provider [("/home/docs", item_type.directory)]) ⟨(), []⟩).1 rfl).1.mpr
      ⟨⟨"/home/docs", item_type.directory⟩, by decide, rfl⟩,
    ((is_directory_follows_links (fun d f => d ++ "/" ++ f) ⟨"broken", item_type.link⟩ "/home"
      (stat_provider [("/home/docs", item_type.directory)]) ⟨(), []⟩).1 rfl).2.1
      (exception.system_error ⟨errc.no_such_file_or_directory, "no such file"⟩) (by decide),
    congrArg Logged.accesses
      ((is_directory_follows_links (fun d f => d ++ "/" ++ f) ⟨"notes", item_type.other 0⟩
        "/home" (stat_provider [("/home/docs", item_type.directory)]) ⟨(), []⟩).2
        (by decide)).2⟩

/-- C17 (counterexample). With the bits of the Microsoft library, the mode 0
(neither `in` nor `out`) makes `get_file("/f", 0)` throw
`std::invalid_argument`, the exception class of the empty path: its error kind
is `InvalidArgument`, not `InvalidOperation`. -/
theorem get_file_without_mode_is_invalid_argument :
    (provider.get_file (enumerating_channel []) bare_names msvc_ios_base "/f" 0 ⟨(), []⟩).1
        = Outcome.threw (exception.invalid_argument "Stream must be input, output or both")
      ∧ (provider.get_file (enumerating_channel []) bare_names msvc_ios_base "" 0 ⟨(), []⟩).1
        = Outcome.threw (exception.invalid_argument "File cannot be empty")
      ∧ error_kind_of (exception.invalid_argument "Stream must be input, output or both")
        = error_kind.InvalidArgument
      ∧ error_kind_of (exception.invalid_argument "Stream must be input, output or both")
        ≠ error_kind.InvalidOperation := by
  decide

/-- C17 (amended). For a non-empty path, once the channel is acquired: a mode
with neither the `in` nor the `out` bit makes `get_file` throw
`std::invalid_argument("Stream must be input, output or both")` without opening a
stream; a mode with both bits opens an `fstream`, a mode with `out` and not `in`
an `ofstream`, a mode with `in` and not `out` an `ifstream`, and then the outcome
of `get_file` is the outcome of that constructor (the stream, named after the
filename of the path, or the exception of the constructor). -/
theorem get_file_mode_selects_stream {α β ι : Type} (channel : sftp_channel σ α ι)
    (lib : sftp_functions α β) (ios : ios_base) (file_path : String) (mode : Nat) (s s1 : σ)
    (hpath : file_path ≠ "")
    (hacquired : channel.get_sftp_filesystem s = (Outcome.returned (), s1)) :
    (mode &&& ios.in_ = 0 → mode &&& ios.out = 0 →
        provider.get_file channel lib ios file_path mode ⟨s, []⟩
          = (Outcome.threw (exception.invalid_argument "Stream must be input, output or both"),
              ⟨s1, [Access.get_sftp_filesystem none]⟩))
      ∧ (mode &&& ios.in_ ≠ 0 → mode &&& ios.out ≠ 0 →
        (provider.get_file channel lib ios file_path mode ⟨s, []⟩).1
          = named_stream (lib.filename file_path) (channel.fstream file_path mode s1).1
        ∧ (provider.get_file channel lib ios file_path mode ⟨s, []⟩).2.accesses
          = [Access.get_sftp_filesystem none,
             Access.fstream file_path mode (channel.fstream file_path mode s1).1.thrown])
      ∧ (mode &&& ios.in_ = 0 → mode &&& ios.out ≠ 0 →
        (provider.get_file channel lib ios file_path mode ⟨s, []⟩).1
          = named_stream (lib.filename file_path) (channel.ofstream file_path mode s1).1
        ∧ (provider.get_file channel lib ios file_path mode ⟨s, []⟩).2.accesses
          = [Access.get_sftp_filesystem none,
             Access.ofstream file_path mode (channel.ofstream file_path mode s1).1.thrown])
      ∧ (mode &&& ios.in_ ≠ 0 → mode &&& ios.out = 0 →
        (provider.get_file channel lib ios file_path mode ⟨s, []⟩).1
          = named_stream (lib.filename file_path) (channel.ifstream file_path mode s1).1
        ∧ (provider.get_file channel lib ios file_path mode ⟨s, []⟩).2.accesses
          = [Access.get_sftp_filesystem none,
             Access.ifstream file_path mode (channel.ifstream file_path mode s1).1.thrown]) := by
  refine ⟨?_, ?_, ?_, ?_⟩
  · intro hin hout
    simp [provider.get_file, logged, hpath, hacquired, hin, hout, Outcome.thrown]
  · intro hin hout
    rcases hopen : channel.fstream file_path mode s1 with ⟨r, s2⟩
    cases r <;>
      simp [provider.get_file, logged, hpath, hacquired, hin, hout, hopen, Outcome.thrown,
        adapt_stream_pointer, named_stream]
  · intro hin hout
    rcases hopen : channel.ofstream file_path mode s1 with ⟨r, s2⟩
    cases r <;>
      simp [provider.get_file, logged, hpath, hacquired, hin, hout, hopen, Outcome.thrown,
        adapt_stream_pointer, named_stream]
  · intro hin hout
    rcases hopen : channel.ifstream file_path mode s1 with ⟨r, s2⟩
    cases r <;>
      simp [provider.get_file, logged, hpath, hacquired, hin, hout, hopen, Outcome.thrown,
        adapt_stream_pointer, named_stream]

/-- Witness of C17 (amended): with the bits of the Microsoft library, the mode
`in | out | trunc` (1 + 2 + 16) opens an `fstream` named after the path. -/
theorem get_file_mode_selects_stream_witness :
    (provider.get_file (enumerating_channel []) bare_names msvc_ios_base "/f" 19 ⟨(), []⟩).1
      = Outcome.returned ⟨"fstream", "/f"⟩ :=
  ((get_file_mode_selects_stream (enumerating_channel []) bare_names msvc_ios_base "/f" 19
    () () (by decide) rfl).2.1 (by decide) (by decide)).1

/-- C19. After a reservation of `identity`, and after any further operations on
the pool none of which removes the session of `identity` (reservations and
releases of any identity, removals of other sessions), a second reservation of
`identity` is granted, with whatever credential resolver, and borrows the same
session instance as the first. -/
theorem reservations_share_session_instance {ρ : Type} (connect : connection_spec → ρ → Bool)
    (pool after_first : session_pool) (identity : connection_spec)
    (first_resolver second_resolver : ρ) (first_task second_task : String)
    (first : reservation) (between : List (pool_operation ρ))
    (hfirst : pool.reserve connect identity first_resolver first_task
      = some (first, after_first))
    (hkept : ∀ op ∈ between, op.removes identity = false) :
    ∃ second after_second,
      (between.foldl (session_pool.perform connect) after_first).reserve connect identity
          second_resolver second_task = some (second, after_second)
        ∧ second.session = first.session := by
  obtain ⟨n, hn⟩ := reserve_holds_session connect pool after_first identity first_resolver
    first_task first hfirst
  obtain ⟨m, hm⟩ := perform_all_keeps_session connect identity first.session between
    after_first n hn hkept
  simp [session_pool.reserve, hm]

/-- C20. In every state of the pool, whatever the reservation count of the
session of `identity`, `has_session(identity)` is false right after
`remove_session(identity)`; the removal does not depend on the reservations. -/
theorem remove_session_forgets_session (pool : session_pool) (identity : connection_spec) :
    (pool.remove_session identity).has_session identity = false := by
  simp [session_pool.remove_session, session_pool.has_session]

/-- Witness of C19: the session of "alice" is reserved, then another session is
reserved, the first reservation is released and the other session is removed;
a reservation of "alice" with another resolver still borrows session 0. -/
theorem reservations_share_session_instance_witness :
    ∃ second after_second,
      ([pool_operation.reserve ⟨"example.org", "bob", 22⟩ "key" "copy",
        pool_operation.release ⟨⟨"example.org", "alice", 22⟩, 0, "list"⟩,
        pool_operation.remove_session ⟨"example.org", "bob", 22⟩].foldl
          (session_pool.perform (fun _ (_ : String) => true))
          { sessions := fun i =>
              if i = ⟨"example.org", "alice", 22⟩ then some ⟨0, 1⟩
              else session_pool.empty.sessions i
            pending_tasks := [(⟨"example.org", "alice", 22⟩, "list")]
            created := 1 }).reserve (fun _ (_ : String) => true)
          ⟨"example.org", "alice", 22⟩ "password" "delete" = some (second, after_second)
        ∧ second.session = (⟨⟨"example.org", "alice", 22⟩, 0, "list"⟩ : reservation).session :=
  reservations_share_session_instance (fun _ (_ : String) => true) session_pool.empty
    { sessions := fun i =>
        if i = ⟨"example.org", "alice", 22⟩ then some ⟨0, 1⟩
        else session_pool.empty.sessions i
      pending_tasks := [(⟨"example.org", "alice", 22⟩, "list")]
      created := 1 }
    ⟨"example.org", "alice", 22⟩ "key" "password" "list" "delete"
    ⟨⟨"example.org", "alice", 22⟩, 0, "list"⟩
    [pool_operation.reserve ⟨"example.org", "bob", 22⟩ "key" "copy",
      pool_operation.release ⟨⟨"example.org", "alice", 22⟩, 0, "list"⟩,
      pool_operation.remove_session ⟨"example.org", "bob", 22⟩]
    rfl
    (by
      intro op hop
      simp only [List.mem_cons, List.mem_singleton, List.not_mem_nil, or_false] at hop
      rcases hop with h | h | h <;> subst h <;> decide)

/-- C21. After a granted reservation of `identity`, `has_session(identity)` is
true, and it is still true after any further operations on the pool none of
which removes the session of `identity`: reservations and releases of any
identity, the release of the last reservation of `identity` included. -/
theorem session_outlives_reservations {ρ : Type} (connect : connection_spec → ρ → Bool)
    (pool after_reserve : session_pool) (identity : connection_spec) (resolver : ρ)
    (task_name : String) (r : reservation) (later : List (pool_operation ρ))
    (hreserved : pool.reserve connect identity resolver task_name = some (r, after_reserve))
    (hkept : ∀ op ∈ later, op.removes identity = false) :
    after_reserve.has_session identity = true
      ∧ (later.foldl (session_pool.perform connect) after_reserve).has_session identity
        = true := by
  obtain ⟨n, hn⟩ := reserve_holds_session connect pool after_reserve identity resolver
    task_name r hreserved
  obtain ⟨m, hm⟩ := perform_all_keeps_session connect identity r.session later
    after_reserve n hn hkept
  simp [session_pool.has_session, hn, hm]

/-- Witness of C21: the only reservation of "alice" is released, and the pool
still has her session. -/
theorem session_outlives_reservations_witness :
    ([pool_operation.release ⟨⟨"example.org", "alice", 22⟩, 0, "list"⟩].foldl
        (session_pool.perform (fun _ (_ : String) => true))
        { sessions := fun i =>
            if i = ⟨"example.org", "alice", 22⟩ then some ⟨0, 1⟩
            else session_pool.empty.sessions i
          pending_tasks := [(⟨"example.org", "alice", 22⟩, "list")]
          created := 1 }).has_session ⟨"example.org", "alice", 22⟩ = true :=
  (session_outlives_reservations (fun _ (_ : String) => true) session_pool.empty
    { sessions := fun i =>
        if i = ⟨"example.org", "alice", 22⟩ then some ⟨0, 1⟩
        else session_pool.empty.sessions i
      pending_tasks := [(⟨"example.org", "alice", 22⟩, "list")]
      created := 1 }
    ⟨"example.org", "alice", 22⟩ "key" "list" ⟨⟨"example.org", "alice", 22⟩, 0, "list"⟩
    [pool_operation.release ⟨⟨"example.org", "alice", 22⟩, 0, "list"⟩]
    rfl
    (by
      intro op hop
      simp only [List.mem_singleton] at hop
      subst hop
      decide)).2

/-- C22. Starting from the empty pool, after any operations none of which is a
reservation of `identity` (sessions may be created for any other identities),
`has_session(identity)` is false; with no operation at all this says that it
is false for every identity of the empty pool. -/
theorem unreserved_identity_has_no_session {ρ : Type}
    (connect : connection_spec → ρ → Bool) (identity : connection_spec)
    (ops : List (pool_operation ρ))
    (hnever : ∀ op ∈ ops, op.reserves identity = false) :
    (ops.foldl (session_pool.perform connect) session_pool.empty).has_session identity
      = false := by
  have h := perform_all_keeps_absent connect identity ops session_pool.empty rfl hnever
  simp [session_pool.has_session, h]

/-- Witness of C22: a session is created for "alice"; the identity
("Unrelated", "Spec", 123) still has none. -/
theorem unreserved_identity_has_no_session_witness :
    ([pool_operation.reserve ⟨"example.org", "alice", 22⟩ "key" "list"].foldl
        (session_pool.perform (fun _ (_ : String) => true))
        session_pool.empty).has_session ⟨"Unrelated", "Spec", 123⟩ = false
    ∧ ([pool_operation.reserve ⟨"example.org", "alice", 22⟩ "key" "list"].foldl
        (session_pool.perform (fun _ (_ : String) => true))
        session_pool.empty).has_session ⟨"example.org", "alice", 22⟩ = true :=
  ⟨unreserved_identity_has_no_session (fun _ (_ : String) => true)
    ⟨"Unrelated", "Spec", 123⟩
    [pool_operation.reserve ⟨"example.org", "alice", 22⟩ "key" "list"]
    (by
      intro op hop
      simp only [List.mem_singleton] at hop
      subst hop
      decide), by decide⟩

/-- C24 (the code at failing inputs). The selection holds "a" and "b".  When
dereferencing the end iterator throws, `Delete::operator()` reads the positions
1 and 2, never position 0, shows no dialog, deletes nothing and throws.  When
it yields some item "junk", the death row handed to `execute_death_row` is
"b", "junk": "a" is skipped. -/
theorem delete_skips_first_and_reads_end :
    (Delete.call (obliging_environment IDYES) 1
        ⟨[⟨"/home", "a", false⟩, ⟨"/home", "b", true⟩],
          fun _ => Outcome.threw (exception.com_error E_INVALIDARG none)⟩ ⟨(), []⟩)
      = (Outcome.threw (exception.com_error E_INVALIDARG none),
          ⟨(), [DeleteEvent.dereference 1 none,
            DeleteEvent.dereference 2 (some (exception.com_error E_INVALIDARG none)),
            DeleteEvent.announce_last_exception 1 "Unable to delete the item"
              "You might not have permission."]⟩)
    ∧ (Delete.call (obliging_environment IDYES) 1
        ⟨[⟨"/home", "a", false⟩, ⟨"/home", "b", true⟩],
          fun _ => Outcome.returned ⟨"?", "junk", false⟩⟩ ⟨(), []⟩).2.events
      = [DeleteEvent.dereference 1 none, DeleteEvent.dereference 2 none,
          DeleteEvent.message_box 1
            "Are you sure you want to permanently delete these 2 items?"
            "Confirm Multiple Item Delete" IDYES,
          DeleteEvent.consumer_factory 1 none,
          DeleteEvent.provider_factory "Deleting files" none,
          DeleteEvent.delete "/home" "b" none,
          DeleteEvent.delete "?" "junk" none] := by
  constructor <;> rfl

/-- C25. For a death row with at least one item: with a null window handle
`execute_death_row` returns without any interaction (no dialog, no provider,
no deletion).  Otherwise its first interaction is the message box of
`confirmation_dialog` (the item-specific dialog for one item, in the file or
folder wording; the count dialog for several); when the answer is not `IDYES`
nothing follows; when it is `IDYES` and `execute_death_row` returns, the two
factories were called and then every item was deleted once, in order. -/
theorem execute_death_row_confirms_then_deletes (env : delete_environment σ)
    (hwnd_view : Nat) (item : parent_and_item) (rest : List parent_and_item) (s : σ) :
    (hwnd_view = 0 →
        execute_death_row env hwnd_view (item :: rest) ⟨s, []⟩
          = (Outcome.returned (), ⟨s, []⟩))
      ∧ (hwnd_view ≠ 0 →
        (execute_death_row env hwnd_view (item :: rest) ⟨s, []⟩).2.events.head?
            = some (DeleteEvent.message_box hwnd_view (confirmation_dialog (item :: rest)).1
                (confirmation_dialog (item :: rest)).2
                (env.message_box hwnd_view (confirmation_dialog (item :: rest)).1
                  (confirmation_dialog (item :: rest)).2 s).1)
        ∧ ((env.message_box hwnd_view (confirmation_dialog (item :: rest)).1
              (confirmation_dialog (item :: rest)).2 s).1 ≠ IDYES →
            (execute_death_row env hwnd_view (item :: rest) ⟨s, []⟩).1 = Outcome.returned ()
            ∧ (execute_death_row env hwnd_view (item :: rest) ⟨s, []⟩).2.events.length = 1)
        ∧ ((env.message_box hwnd_view (confirmation_dialog (item :: rest)).1
              (confirmation_dialog (item :: rest)).2 s).1 = IDYES →
            (execute_death_row env hwnd_view (item :: rest) ⟨s, []⟩).1 = Outcome.returned () →
            (execute_death_row env hwnd_view (item :: rest) ⟨s, []⟩).2.events
              = [DeleteEvent.message_box hwnd_view (confirmation_dialog (item :: rest)).1
                    (confirmation_dialog (item :: rest)).2 IDYES,
                  DeleteEvent.consumer_factory hwnd_view none,
                  DeleteEvent.provider_factory "Deleting files" none]
                ++ (item :: rest).map deleted)) := by
  constructor
  · intro hnull
    cases rest <;>
      simp [execute_death_row, confirm_deletion, confirm_multiple_deletion, hnull]
  · intro hwindow
    rw [execute_death_row_asks env hwnd_view item rest s hwindow]
    by_cases hyes : (env.message_box hwnd_view (confirmation_dialog (item :: rest)).1
        (confirmation_dialog (item :: rest)).2 s).1 = IDYES
    · simp only [hyes, if_true]
      refine ⟨?_, fun h => absurd rfl h, ?_⟩
      · obtain ⟨t, ht⟩ := do_delete_extends env hwnd_view (item :: rest)
          ⟨(env.message_box hwnd_view (confirmation_dialog (item :: rest)).1
              (confirmation_dialog (item :: rest)).2 s).2,
            [DeleteEvent.message_box hwnd_view (confirmation_dialog (item :: rest)).1
              (confirmation_dialog (item :: rest)).2 IDYES]⟩
        rw [ht]
        rfl
      · intro _ hreturned
        rw [do_delete_returned env hwnd_view (item :: rest) _ hreturned]
        simp
    · simp [hyes]

/-- Witness of C25: the user confirms the deletion of the folder "b", and it is
deleted after the two factories were called. -/
theorem execute_death_row_confirms_then_deletes_witness :
    (execute_death_row (obliging_environment IDYES) 1 [⟨"/home", "b", true⟩] ⟨(), []⟩).2.events
      = [DeleteEvent.message_box 1
            "Are you sure you want to permanently delete the folder 'b' and all of its contents?"
            "Confirm Folder Delete" IDYES,
          DeleteEvent.consumer_factory 1 none,
          DeleteEvent.provider_factory "Deleting files" none,
          DeleteEvent.delete "/home" "b" none] :=
  ((execute_death_row_confirms_then_deletes (obliging_environment IDYES) 1
    ⟨"/home", "b", true⟩ [] ()).2 (by decide)).2.2 rfl rfl

/-- C30 (counterexample). The dialog thread ended with an exception.  The first
call of the sink, with the task "copy", starts the dialog and returns true;
the second call, with the empty list, does not return continue: it throws the
exception of the dialog. -/
theorem sink_call_with_empty_list_throws :
    (disconnection_progress.call failed_dialog ⟨none⟩ ["copy"] ⟨(), []⟩).1
      = Outcome.returned true
    ∧ (disconnection_progress.call failed_dialog
        (disconnection_progress.after_calls failed_dialog [["copy"]] (⟨none⟩, ⟨(), []⟩)).1 []
        (disconnection_progress.after_calls failed_dialog [["copy"]] (⟨none⟩, ⟨(), []⟩)).2).1
      = Outcome.threw (exception.com_error E_ABORT none) := by
  decide

/-- C30 (amended). After any earlier calls of a fresh sink, a call returns false
only if its list is not empty, an earlier call had a list that is not empty, and
the last thing the call did was to find the dialog dismissed.  The first call
returns true.  A call with an empty list never returns false: it returns true,
or throws the exception that the dismissal command of the dialog threw.  While
every list so far was empty the sink has not interacted with the dialog at
all. -/
theorem sink_cancels_only_after_dismissal (dialog : task_dialog σ)
    (earlier : List (List String)) (pending_tasks : List String) (s : σ) :
    ((disconnection_progress.call dialog
          (disconnection_progress.after_calls dialog earlier (⟨none⟩, ⟨s, []⟩)).1 pending_tasks
          (disconnection_progress.after_calls dialog earlier (⟨none⟩, ⟨s, []⟩)).2).1
        = Outcome.returned false →
        pending_tasks ≠ [] ∧ (∃ p ∈ earlier, p ≠ []) ∧
          (disconnection_progress.call dialog
            (disconnection_progress.after_calls dialog earlier (⟨none⟩, ⟨s, []⟩)).1 pending_tasks
            (disconnection_progress.after_calls dialog earlier (⟨none⟩, ⟨s, []⟩)).2).2.2.events.getLast?
            = some (DialogEvent.dialog_has_been_dismissed true))
      ∧ (earlier = [] →
        (disconnection_progress.call dialog
          (disconnection_progress.after_calls dialog earlier (⟨none⟩, ⟨s, []⟩)).1 pending_tasks
          (disconnection_progress.after_calls dialog earlier (⟨none⟩, ⟨s, []⟩)).2).1
          = Outcome.returned true)
      ∧ (pending_tasks = [] →
        (disconnection_progress.call dialog
          (disconnection_progress.after_calls dialog earlier (⟨none⟩, ⟨s, []⟩)).1 pending_tasks
          (disconnection_progress.after_calls dialog earlier (⟨none⟩, ⟨s, []⟩)).2).1
          = Outcome.returned true
        ∨ ∃ e,
          (disconnection_progress.call dialog
            (disconnection_progress.after_calls dialog earlier (⟨none⟩, ⟨s, []⟩)).1 pending_tasks
            (disconnection_progress.after_calls dialog earlier (⟨none⟩, ⟨s, []⟩)).2).1
            = Outcome.threw e
          ∧ (disconnection_progress.call dialog
            (disconnection_progress.after_calls dialog earlier (⟨none⟩, ⟨s, []⟩)).1 pending_tasks
            (disconnection_progress.after_calls dialog earlier (⟨none⟩, ⟨s, []⟩)).2).2.2.events.getLast?
            = some (DialogEvent.invoke_command (some e)))
      ∧ ((∀ p ∈ earlier, p = []) → pending_tasks = [] →
        (disconnection_progress.call dialog
          (disconnection_progress.after_calls dialog earlier (⟨none⟩, ⟨s, []⟩)).1 pending_tasks
          (disconnection_progress.after_calls dialog earlier (⟨none⟩, ⟨s, []⟩)).2).2.2.events
          = []) := by
  obtain ⟨hsame, hcreated⟩ := after_calls_without_tasks dialog earlier (⟨none⟩, ⟨s, []⟩) rfl
  generalize hstate : disconnection_progress.after_calls dialog earlier (⟨none⟩, ⟨s, []⟩)
    = state at hsame hcreated ⊢
  obtain ⟨self, w⟩ := state
  refine ⟨?_, ?_, ?_, ?_⟩
  · intro hfalse
    cases hdialog : self.m_dialog with
    | none =>
      exfalso
      simp only [disconnection_progress.call, hdialog] at hfalse
      split at hfalse <;> simp at hfalse
    | some ui =>
      have hearlier := hcreated (by simp [hdialog])
      simp only [disconnection_progress.call, hdialog, waiting_ui.update] at hfalse ⊢
      cases hlist : pending_tasks with
      | nil =>
        exfalso
        simp only [hlist, List.isEmpty_nil, if_true] at hfalse
        split at hfalse <;> simp at hfalse
      | cons task more =>
        simp only [hlist, List.isEmpty_cons, Bool.false_eq_true, if_false] at hfalse ⊢
        refine ⟨by simp, hearlier, ?_⟩
        split at hfalse
        · simp at hfalse
        · rename_i u hcontent
          simp only [hcontent]
          simp only [Outcome.returned.injEq, Bool.not_eq_false'] at hfalse
          simp [hfalse]
  · intro hnone
    subst hnone
    simp only [disconnection_progress.after_calls] at hstate
    cases hstate
    simp only [disconnection_progress.call]
    split <;> rfl
  · intro hlist
    subst hlist
    cases hdialog : self.m_dialog with
    | none => left; simp [disconnection_progress.call, hdialog]
    | some ui =>
      simp only [disconnection_progress.call, hdialog, waiting_ui.update, List.isEmpty_nil,
        if_true]
      split
      · rename_i e he
        right
        exact ⟨e, rfl, by simp⟩
      · left; rfl
  · intro hall hlist
    subst hlist
    have := hsame hall
    cases this
    simp [disconnection_progress.call]

/-- Witness of C30 (amended): the dialog was started by a first call with the
task "copy" and has been dismissed; the second call with "copy" returns false,
and the dialog was found dismissed. -/
theorem sink_cancels_only_after_dismissal_witness :
    ["copy"] ≠ [] ∧ (∃ p ∈ [["copy"]], p ≠ []) ∧
      (disconnection_progress.call (shown_dialog true)
        (disconnection_progress.after_calls (shown_dialog true) [["copy"]]
          (⟨none⟩, ⟨(), []⟩)).1 ["copy"]
        (disconnection_progress.after_calls (shown_dialog true) [["copy"]]
          (⟨none⟩, ⟨(), []⟩)).2).2.2.events.getLast?
        = some (DialogEvent.dialog_has_been_dismissed true) :=
  (sink_cancels_only_after_dismissal (shown_dialog true) [["copy"]] ["copy"] ()).1 (by decide)

/-- C26 (the code at failing inputs). The name "sftp://user@host:22" has no '/'
behind the port; `parse_display_name` does not throw `E_FAIL` but creates the
host item for user "user", host "host", port 22, with the whole name as path.
With `MIN_PORT = 0` the name "sftp://user@host/path", which has no ':', is
accepted as well, with host "host/path" and port 0. -/
theorem parse_display_name_accepts_missing_separators :
    parse_display_name usual_limits 64 (fun item _ => Outcome.returned item)
        "sftp://user@host:22".toList
      = Outcome.returned (parsed_name.under_root
          ⟨"host".toList, "user".toList, "sftp://user@host:22".toList, 22⟩)
    ∧ parse_display_name usual_limits 64 (fun item _ => Outcome.returned item)
        "sftp://user@host/path".toList
      = Outcome.returned (parsed_name.under_root
          ⟨"host/path".toList, "user".toList, "path".toList, 0⟩) := by
  constructor <;> decide

/-- C27. For a name `sftp://U@H:P/X` whose `U` and `H` are not empty and hold
none of '@', ':' and '/', whose `P` is a string of decimal digits that is not
empty and whose `X` is not empty (the name fitting twice into `size_type`, and
`MAX_PORT` below `INT_MAX`): when the value of `P` is within
`[MIN_PORT, MAX_PORT]`, `parse_display_name` creates the host item with user
`U`, host `H`, path `X` and that port, has the subfolder of that item parse
`X` up to its first `NUL` and cut to 259 characters, and returns the root PIDL
followed by what the subfolder parsed, or throws what the subfolder threw; when
the value is outside, it throws `com_error(E_FAIL)`.  A name that is not empty
and does not start with "sftp://" is rejected with `com_error(E_FAIL)`, and the
empty name gives the root PIDL. -/
theorem parse_display_name_well_formed {π : Type} (limits : remotelimits) (bits : Nat)
    (subfolder_parse : host_itemid → List Char → Outcome π) (user host port path : List Char)
    (huser : user ≠ []) (huser_free : separator_free user)
    (hhost : host ≠ []) (hhost_free : separator_free host)
    (hport : port ≠ []) (hdigits : ∀ c ∈ port, c.isDigit = true) (hpath : path ≠ [])
    (hfits : 2 * (display_name_of user host port path).length ≤ 2 ^ bits)
    (hint : limits.MAX_PORT < INT_MAX) :
    (limits.MIN_PORT ≤ (decimal_value port : Int) →
        (decimal_value port : Int) ≤ limits.MAX_PORT →
        parse_display_name limits bits subfolder_parse (display_name_of user host port path)
          = match subfolder_parse ⟨host, user, path, (decimal_value port : Int)⟩
              ((path.takeWhile (fun c => c != Char.ofNat 0)).take 259) with
            | Outcome.threw e => Outcome.threw e
            | Outcome.returned pidl_path =>
              Outcome.returned (parsed_name.under_root pidl_path))
      ∧ ((decimal_value port : Int) < limits.MIN_PORT
          ∨ limits.MAX_PORT < (decimal_value port : Int) →
        parse_display_name limits bits subfolder_parse (display_name_of user host port path)
          = Outcome.threw (exception.com_error E_FAIL none))
      ∧ (∀ name : List Char, name ≠ [] → name.take 7 ≠ "sftp://".toList →
        parse_display_name limits bits subfolder_parse name
          = Outcome.threw (exception.com_error E_FAIL none))
      ∧ parse_display_name limits bits subfolder_parse []
          = Outcome.returned parsed_name.root_pidl := by
  have hmain := parse_well_formed limits bits subfolder_parse user host port path huser
    huser_free hhost hhost_free hport hdigits hpath hfits
  refine ⟨?_, ?_, ?_, ?_⟩
  · intro hmin hmax
    have hvalue : min (decimal_value port : Int) INT_MAX = (decimal_value port : Int) :=
      min_eq_left (by omega)
    rw [hmain, hvalue, if_neg (by omega)]
    rfl
  · intro hout
    rw [hmain, if_pos]
    rcases hout with h | h
    · left
      exact lt_of_le_of_lt (min_le_left _ _) h
    · right
      exact lt_min h hint
  · intro name hname hprefix
    unfold parse_display_name
    rw [if_neg hname, if_pos hprefix]
  · simp [parse_display_name]

/-- Witness of C27: the name `sftp://user@host:22/` followed by 300 times the
character x gives the host item of "user" at "host", port 22, with the whole
path of 300 characters, and the subfolder is given the first 259 of them. -/
theorem parse_display_name_well_formed_witness :
    parse_display_name usual_limits 64 (fun item path => Outcome.returned (item, path))
        (display_name_of "user".toList "host".toList "22".toList (List.replicate 300 'x'))
      = Outcome.returned (parsed_name.under_root
          (⟨"host".toList, "user".toList, List.replicate 300 'x', 22⟩,
            List.replicate 259 'x')) :=
  ((parse_display_name_well_formed usual_limits 64
    (fun item path => Outcome.returned (item, path))
    "user".toList "host".toList "22".toList (List.replicate 300 'x') (by decide)
    (by unfold separator_free; decide) (by decide) (by unfold separator_free; decide)
    (by decide) (by decide)
    (fun h => absurd (congrArg List.length h) (by simp only [List.length_replicate]; decide))
    (by
      simp only [display_name_of, List.length_append, List.length_cons,
        List.length_replicate]
      decide)
    (by decide)).1 (by decide) (by decide)).trans
    (by
      have hx : ('x' != Char.ofNat 0) = true := by decide
      simp only [List.takeWhile_replicate, hx, if_true, List.take_replicate]
      rfl)

/-- C28 (the code at the inputs of the claim). When the size of the structure
fits its 16-bit `cb` member and `1 ≤ MAX_HOSTNAME_LENZ ≤ MAX_FILENAME_LENZ`, for
a filename without `NUL` that is shorter than `MAX_FILENAME_LENZ`, an owner and
a group without `NUL` that are shorter than `MAX_USERNAME_LENZ`, and numbers of
the width of their parameters: `create_remote_itemid` makes an item that is
valid, and the view reads owner, group, owner id, group id, folder flag, link
flag, permissions and size back as given, but the filename cut to
`MAX_HOSTNAME_LENZ - 1` characters, which is the filename exactly when it is
shorter than `MAX_HOSTNAME_LENZ`.  On a view that is not valid each of the
accessors throws the exception `PIDL is not a remote item`. -/
theorem remote_itemid_filename_cut_at_hostname_limit (limits : remotelimits)
    (filename owner group : List Char) (is_folder is_link : Bool)
    (owner_id group_id permissions size : Nat)
    (hsize : sizeof_remote_item_id limits < 2 ^ 16)
    (hindex : 1 ≤ limits.MAX_HOSTNAME_LENZ
      ∧ limits.MAX_HOSTNAME_LENZ ≤ limits.MAX_FILENAME_LENZ)
    (hfilename : storable filename limits.MAX_FILENAME_LENZ)
    (howner : storable owner limits.MAX_USERNAME_LENZ)
    (hgroup : storable group limits.MAX_USERNAME_LENZ)
    (howner_id : owner_id < 2 ^ 32) (hgroup_id : group_id < 2 ^ 32)
    (hpermissions : permissions < 2 ^ 32) (hsize_in_bytes : size < 2 ^ 64) :
    (∃ item : remote_item_id,
      create_remote_itemid limits filename is_folder is_link owner group
        owner_id group_id permissions size = some item ∧
      remote_itemid_view.valid limits ⟨some item⟩ = true ∧
      remote_itemid_view.filename limits ⟨some item⟩
        = Outcome.returned (filename.take (limits.MAX_HOSTNAME_LENZ - 1)) ∧
      remote_itemid_view.owner limits ⟨some item⟩ = Outcome.returned owner ∧
      remote_itemid_view.group limits ⟨some item⟩ = Outcome.returned group ∧
      remote_itemid_view.owner_id limits ⟨some item⟩ = Outcome.returned owner_id ∧
      remote_itemid_view.group_id limits ⟨some item⟩ = Outcome.returned group_id ∧
      remote_itemid_view.is_folder limits ⟨some item⟩ = Outcome.returned is_folder ∧
      remote_itemid_view.is_link limits ⟨some item⟩ = Outcome.returned is_link ∧
      remote_itemid_view.permissions limits ⟨some item⟩ = Outcome.returned permissions ∧
      remote_itemid_view.size limits ⟨some item⟩ = Outcome.returned size) ∧
    (filename.take (limits.MAX_HOSTNAME_LENZ - 1) = filename
      ↔ filename.length < limits.MAX_HOSTNAME_LENZ) ∧
    (∀ view : remote_itemid_view, view.valid limits = false →
      view.filename limits = Outcome.threw (exception.other "PIDL is not a remote item") ∧
      view.owner limits = Outcome.threw (exception.other "PIDL is not a remote item") ∧
      view.group limits = Outcome.threw (exception.other "PIDL is not a remote item") ∧
      view.owner_id limits = Outcome.threw (exception.other "PIDL is not a remote item") ∧
      view.group_id limits = Outcome.threw (exception.other "PIDL is not a remote item") ∧
      view.is_folder limits = Outcome.threw (exception.other "PIDL is not a remote item") ∧
      view.is_link limits = Outcome.threw (exception.other "PIDL is not a remote item") ∧
      view.permissions limits = Outcome.threw (exception.other "PIDL is not a remote item") ∧
      view.size limits = Outcome.threw (exception.other "PIDL is not a remote item")) := by
  have husername : 1 ≤ limits.MAX_USERNAME_LENZ := by
    have := howner.2
    omega
  refine ⟨?_, ?_, ?_⟩
  · refine ⟨_, create_remote_itemid_defined limits filename is_folder is_link owner group
      owner_id group_id permissions size hindex.1 hindex.2 husername, ?_⟩
    have hcb : sizeof_remote_item_id limits % 2 ^ 16 = sizeof_remote_item_id limits :=
      Nat.mod_eq_of_lt hsize
    have hvalid : remote_itemid_view.valid limits ⟨some
        { cb := sizeof_remote_item_id limits % 2 ^ 16
          dwFingerprint := FINGERPRINT
          wszFilename :=
            (wstring_copy filename limits.MAX_FILENAME_LENZ
              (List.replicate limits.MAX_FILENAME_LENZ NUL)).set
                (limits.MAX_HOSTNAME_LENZ - 1) NUL
          wszOwner :=
            (wstring_copy owner limits.MAX_USERNAME_LENZ
              (List.replicate limits.MAX_USERNAME_LENZ NUL)).set
                (limits.MAX_USERNAME_LENZ - 1) NUL
          wszGroup :=
            (wstring_copy group limits.MAX_USERNAME_LENZ
              (List.replicate limits.MAX_USERNAME_LENZ NUL)).set
                (limits.MAX_USERNAME_LENZ - 1) NUL
          fIsFolder := is_folder
          fIsLink := is_link
          uUid := owner_id % 2 ^ 32
          uGid := group_id % 2 ^ 32
          dwPermissions := permissions % 2 ^ 32
          uSize := size % 2 ^ 64 }⟩ = true := by
      simp only [remote_itemid_view.valid, hcb]
      simp
    have hread : ∀ {α : Type} (member : remote_item_id → α) (item : remote_item_id),
        remote_itemid_view.valid limits ⟨some item⟩ = true →
        remote_itemid_view.read limits ⟨some item⟩ member = Outcome.returned (member item) := by
      intro α member item hitem
      unfold remote_itemid_view.read
      simp only [hitem, if_true]
    refine ⟨hvalid, ?_, ?_, ?_, ?_, ?_, ?_, ?_, ?_, ?_⟩
    · unfold remote_itemid_view.filename
      rw [hread _ _ hvalid]
      exact congrArg Outcome.returned
        (stored_string_reads_back filename _ _ hfilename.1 hfilename.2)
    · unfold remote_itemid_view.owner
      rw [hread _ _ hvalid]
      exact congrArg Outcome.returned
        ((stored_string_reads_back owner _ _ howner.1 howner.2).trans
          (List.take_of_length_le (by have := howner.2; omega)))
    · unfold remote_itemid_view.group
      rw [hread _ _ hvalid]
      exact congrArg Outcome.returned
        ((stored_string_reads_back group _ _ hgroup.1 hgroup.2).trans
          (List.take_of_length_le (by have := hgroup.2; omega)))
    · unfold remote_itemid_view.owner_id
      rw [hread _ _ hvalid]
      exact congrArg Outcome.returned (Nat.mod_eq_of_lt howner_id)
    · unfold remote_itemid_view.group_id
      rw [hread _ _ hvalid]
      exact congrArg Outcome.returned (Nat.mod_eq_of_lt hgroup_id)
    · unfold remote_itemid_view.is_folder
      rw [hread _ _ hvalid]
    · unfold remote_itemid_view.is_link
      rw [hread _ _ hvalid]
    · unfold remote_itemid_view.permissions
      rw [hread _ _ hvalid]
      exact congrArg Outcome.returned (Nat.mod_eq_of_lt hpermissions)
    · unfold remote_itemid_view.size
      rw [hread _ _ hvalid]
      exact congrArg Outcome.returned (Nat.mod_eq_of_lt hsize_in_bytes)
  · constructor
    · intro h
      have hlength := congrArg List.length h
      rw [List.length_take] at hlength
      have := hindex.1
      omega
    · intro h
      exact List.take_of_length_le (by omega)
  · intro view hview
    have hread : ∀ {α : Type} (member : remote_item_id → α),
        view.read limits member
          = Outcome.threw (exception.other "PIDL is not a remote item") := by
      intro α member
      unfold remote_itemid_view.read
      rw [hview]
      cases view.m_itemid <;> simp
    exact ⟨hread _, hread _, hread _, hread _, hread _, hread _, hread _, hread _, hread _⟩

/-- C28, at a failing input: with filenames of up to 7 characters and hostnames
of up to 3, the filename "abcdefg" is stored in a valid item id and is read
back as "abc". -/
theorem remote_itemid_filename_cut_at_hostname_limit_witness :
    ∃ item : remote_item_id,
      create_remote_itemid short_hostname_limits ['a', 'b', 'c', 'd', 'e', 'f', 'g']
        false true ['o'] ['g'] 0 50 420 1024 = some item ∧
      remote_itemid_view.valid short_hostname_limits ⟨some item⟩ = true ∧
      remote_itemid_view.filename short_hostname_limits ⟨some item⟩
        = Outcome.returned ['a', 'b', 'c'] ∧
      remote_itemid_view.size short_hostname_limits ⟨some item⟩ = Outcome.returned 1024 := by
  obtain ⟨item, hcreate, hvalid, hfilename, _, _, _, _, _, _, _, hsize⟩ :=
    (remote_itemid_filename_cut_at_hostname_limit short_hostname_limits
      ['a', 'b', 'c', 'd', 'e', 'f', 'g'] ['o'] ['g'] false true 0 50 420 1024
      (by decide) (by decide) ⟨by decide, by decide⟩ ⟨by decide, by decide⟩
      ⟨by decide, by decide⟩ (by decide) (by decide) (by decide) (by decide)).1
  exact ⟨item, hcreate, hvalid, hfilename, hsize⟩

end swish
